import Mathlib

/-!
Verification of the Data-Analytics CSV-cleaning scripts.

This file gives a shallow embedding, in Lean 4, of the row-scanning,
field-classification, deduplication, encoding-fallback and aggregation
logic of the Python scripts in this repository
(egresados_posgrados.py, limpiar_csv_posgrados.py,
egresados_posgrados_limpios.py, totalxano.py, programas.py, app.py),
and proves or refutes the specified properties of that logic.

Text is modelled as Lean strings; the Python string primitives used by
the scripts (strip, upper, lower, split, find, replace, substring
membership, isdigit, isalpha) are re-implemented below by structural
recursion on the character list so that every definition evaluates
inside the kernel.  Case mapping is ASCII (the scripts only compare
against ASCII keywords); whitespace is the ASCII whitespace set.
Missing CSV cells (pandas NaN) are modelled as none : Option String.
-/

/-- ASCII whitespace test, modelling the characters stripped by
Python str.strip and matched by the regex class backslash-s. -/
def esEspacio (c : Char) : Bool := c = ' ' || c = '\t' || c = '\n' || c = '\r'

/-- Both-ends whitespace trim on a character list. -/
def recorteL (l : List Char) : List Char :=
  ((l.dropWhile esEspacio).reverse.dropWhile esEspacio).reverse

/-- Python str.strip(). -/
def recorte (s : String) : String := String.mk (recorteL s.data)

/-- Prefix test on character lists (Python str.startswith). -/
def empiezaCon : List Char → List Char → Bool
  | [], _ => true
  | _ :: _, [] => false
  | a :: as, b :: bs => a = b && empiezaCon as bs

/-- Substring occurrence on character lists. -/
def contieneSub (aguja : List Char) : List Char → Bool
  | [] => aguja.isEmpty
  | c :: t => empiezaCon aguja (c :: t) || contieneSub aguja t

/-- Python substring membership: aguja in pajar. -/
def contiene (pajar aguja : String) : Bool := contieneSub aguja.data pajar.data

/-- Index of the first occurrence of a substring (Python str.find),
none when the substring does not occur. -/
def indiceSubAux (aguja : List Char) : List Char → Nat → Option Nat
  | [], n => if aguja.isEmpty then some n else none
  | c :: t, n => if empiezaCon aguja (c :: t) then some n else indiceSubAux aguja t (n + 1)

/-- Python str.find on strings (successful case). -/
def indiceSub (pajar aguja : String) : Option Nat := indiceSubAux aguja.data pajar.data 0

/-- ASCII uppercase of one character. -/
def mayusChar (c : Char) : Char :=
  if 97 ≤ c.toNat ∧ c.toNat ≤ 122 then Char.ofNat (c.toNat - 32) else c

/-- ASCII lowercase of one character. -/
def minusChar (c : Char) : Char :=
  if 65 ≤ c.toNat ∧ c.toNat ≤ 90 then Char.ofNat (c.toNat + 32) else c

/-- Python str.upper (ASCII range). -/
def mayus (s : String) : String := String.mk (s.data.map mayusChar)

/-- Python str.lower (ASCII range). -/
def minus (s : String) : String := String.mk (s.data.map minusChar)

/-- ASCII digit test. -/
def esDigito (c : Char) : Bool := 48 ≤ c.toNat ∧ c.toNat ≤ 57

/-- ASCII letter test (Python str.isalpha on the ASCII range). -/
def esAlfa (c : Char) : Bool :=
  (65 ≤ c.toNat ∧ c.toNat ≤ 90) || (97 ≤ c.toNat ∧ c.toNat ≤ 122)

/-- Python str.isdigit: nonempty and all digits. -/
def esDigitos (s : String) : Bool := !s.data.isEmpty && s.data.all esDigito

/-- Helper for whitespace splitting: accumulates the current word reversed. -/
def sepEspaciosAux : List Char → List Char → List (List Char)
  | [], acc => if acc.isEmpty then [] else [acc.reverse]
  | c :: t, acc =>
    if esEspacio c then
      if acc.isEmpty then sepEspaciosAux t [] else acc.reverse :: sepEspaciosAux t []
    else sepEspaciosAux t (c :: acc)

/-- Python str.split() with no argument: split on whitespace runs,
dropping empty pieces. -/
def sepEspacios (s : String) : List String :=
  (sepEspaciosAux s.data []).map String.mk

/-- Python str.split(maxsplit equal to 1): first word, then the rest of
the string with the separating whitespace run removed. -/
def sepMaxUno (s : String) : List String :=
  match s.data.dropWhile esEspacio with
  | [] => []
  | l =>
    let palabra := l.takeWhile (fun c => !esEspacio c)
    match (l.drop palabra.length).dropWhile esEspacio with
    | [] => [String.mk palabra]
    | resto => [String.mk palabra, String.mk resto]

/-- Replace every occurrence of a nonempty pattern, left to right and
without overlap (Python str.replace); an empty pattern is returned
unchanged (the scripts only pass nonempty patterns). -/
def reemplazarL (aguja repl : List Char) : List Char → List Char
  | [] => []
  | c :: t =>
    if h : aguja ≠ [] ∧ empiezaCon aguja (c :: t) then
      repl ++ reemplazarL aguja repl ((c :: t).drop aguja.length)
    else c :: reemplazarL aguja repl t
termination_by l => l.length
decreasing_by
  · simp only [List.length_drop]
    exact Nat.sub_lt (Nat.succ_pos _) (List.length_pos.mpr h.1)
  · simp

/-- Python str.replace on strings. -/
def reemplazar (s aguja repl : String) : String :=
  String.mk (reemplazarL aguja.data repl.data s.data)

/-- Digit list to number (the int() conversion of an all-digit string). -/
def natDeDigitos (l : List Char) : Nat := l.foldl (fun n c => n * 10 + (c.toNat - 48)) 0

/-- Python int(s) on a string: strip, optional sign, digits; none models
the ValueError branch that the scripts catch. -/
def pyEntero (s : String) : Option Int :=
  match recorteL s.data with
  | [] => none
  | '-' :: resto =>
    if !resto.isEmpty && resto.all esDigito then some (-(natDeDigitos resto : Int)) else none
  | '+' :: resto =>
    if !resto.isEmpty && resto.all esDigito then some ((natDeDigitos resto : Int)) else none
  | l => if l.all esDigito then some ((natDeDigitos l : Int)) else none

/-- Join a list of strings with single spaces (Python str.join). -/
def unirEspacio : List String → String
  | [] => ""
  | [s] => s
  | s :: resto => s ++ " " ++ unirEspacio resto

/-- First-occurrence deduplication, the order-preserving set/unique()
construction used by the loaders. -/
def unicos (l : List String) : List String :=
  l.foldl (fun acc x => if x ∈ acc then acc else acc ++ [x]) []

/-- Association-list lookup, modelling Python dict access. -/
def buscarClave {α : Type} : List (String × α) → String → Option α
  | [], _ => none
  | (k, v) :: resto, clave => if k = clave then some v else buscarClave resto clave

/-- Association-list in-place update of the first binding of a key. -/
def reemplazarClave {α : Type} : List (String × α) → String → α → List (String × α)
  | [], _, _ => []
  | (k, v) :: resto, clave, nuevo =>
    if k = clave then (k, nuevo) :: resto else (k, v) :: reemplazarClave resto clave nuevo

/-! ## egresados_posgrados.py -/

/-- egresados_posgrados.py, cargar_base_datos_egresados (lines 41-48):
from the values of the identification column (already restricted by
dropna/unique to the distinct non-null values, modelled by unicos of the
non-none cells), collect the set of stripped cedula strings that are nonempty and
distinct from the text nan.  The set is modelled as a duplicate-free list built in
insertion order. -/
def cargarBaseDatosEgresados (columnaCedula : List (Option String)) : List String :=
  (unicos (columnaCedula.filterMap id)).foldl
    (fun cedulas valor =>
      let cedulaLimpia := recorte valor
      if cedulaLimpia ≠ "" ∧ minus cedulaLimpia ≠ "nan" then
        (if cedulaLimpia ∈ cedulas then cedulas else cedulas ++ [cedulaLimpia])
      else cedulas) []

/-- egresados_posgrados.py, extraer_codigo_programa (lines 50-63): strip,
split on whitespace, and return the first token when it is all digits
(note: no length check), otherwise none. -/
def extraerCodigoPrograma : Option String → Option String
  | none => none
  | some nombrePrograma =>
    match sepEspacios (recorte nombrePrograma) with
    | [] => none
    | p :: _ => if esDigitos p then some p else none

/-- egresados_posgrados.py, extraer_nombre_programa_limpio (lines 65-91):
when the uppercased name mentions RESOLUCION, cut the name just before
the first occurrence of the first matching case variant, provided that
occurrence is at a positive index; otherwise return the stripped name. -/
def extraerNombreProgramaLimpio : Option String → Option String
  | none => none
  | some s =>
    let nombreStr := recorte s
    let u := mayus nombreStr
    if contiene u "RESOLUCION" ∨ contiene u "RESOLUCIÓN" then
      match (["RESOLUCION", "RESOLUCIÓN", "Resolucion", "Resolución"] : List String).findSome?
          (fun variante => if contiene nombreStr variante then indiceSub nombreStr variante else none) with
      | some idxRes =>
        if idxRes > 0 then some (recorte (String.mk (nombreStr.data.take idxRes)))
        else some nombreStr
      | none => some nombreStr
    else some nombreStr

/-- egresados_posgrados.py line 127/130: nonempty, length at least 5 and
the first five characters are digits. -/
def primeros5Digitos (s : String) : Bool :=
  !(s.data.take 5).isEmpty && (s.data.take 5).all esDigito

/-- egresados_posgrados.py lines 140-142: a cell that looks like a
program header line (long, starts with five digits, mentions a
postgraduate keyword, and is not a resolution/pensum line). -/
def esLineaPrograma (v : String) : Bool :=
  v.length > 20 && primeros5Digitos v &&
  (contiene (mayus v) "ESPECIALIZACION" || contiene (mayus v) "MAESTRIA" ||
    contiene (mayus v) "DOCTORADO") &&
  !contiene (mayus v) "RESOLUCION" && !contiene (mayus v) "PENSUM"

/-- egresados_posgrados.py lines 165-176: the name heuristic for a cell. -/
def esNombreCandidato (vs : String) : Bool :=
  vs.length > 5 && vs.data.any esAlfa && contiene vs " " &&
  !contiene (mayus vs) "UNIVERSIDAD" && !contiene vs "Nombre" && !contiene vs "Nivel" &&
  !contiene vs "Pensum" && !contiene vs "Programa" && !contiene vs "Periodo" &&
  !contiene vs "Facultad"

/-- egresados_posgrados.py lines 180-184: the cedula/codigo heuristic for
a cell: all digits, length 6 to 12, and not one of the period literals. -/
def esCedulaCandidata (vs : String) : Bool :=
  esDigitos vs && 6 ≤ vs.length && vs.length ≤ 12 &&
  vs ≠ "20211" && vs ≠ "20221" && vs ≠ "20231" && vs ≠ "20241" && vs ≠ "20251"

/-- The running result of the cell scan of one row
(egresados_posgrados.py lines 157-189). -/
structure EscaneoPos where
  nombreEncontrado : Option String
  cedulaEncontrada : Option String
  codigoEncontrado : Option String
deriving Repr, DecidableEq

/-- One cell of the scan: a matching name reassigns nombreEncontrado
(last match wins); the first qualifying digit string becomes the cedula
and the second the codigo. -/
def pasoCelda (e : EscaneoPos) (celda : Option String) : EscaneoPos :=
  match celda with
  | none => e
  | some valor =>
    let vs := recorte valor
    let e1 := if esNombreCandidato vs then { e with nombreEncontrado := some vs } else e
    if esCedulaCandidata vs then
      match e1.cedulaEncontrada with
      | none => { e1 with cedulaEncontrada := some vs }
      | some _ =>
        match e1.codigoEncontrado with
        | none => { e1 with codigoEncontrado := some vs }
        | some _ => e1
    else e1

/-- The full cell scan of one row. -/
def escanearCeldas (fila : List (Option String)) : EscaneoPos :=
  fila.foldl pasoCelda ⟨none, none, none⟩

/-- One extracted student record (egresados_posgrados.py lines 200-207).
The two programa fields are Option String because the Python dict can
hold None there (when extraer_codigo_programa or
extraer_nombre_programa_limpio returns None). -/
structure RegistroPos where
  anio : Int
  programaCodigo : Option String
  programaNombre : Option String
  nombre : String
  identificacion : String
  esEgresadoULibre : String
deriving Repr, DecidableEq

/-- Loop state of procesar_archivo_posgrados: the current program line,
the set of seen composite keys (as the list of its insertion order), and
the accumulated records. -/
structure EstadoPos where
  programaActual : Option String
  vistos : List String
  resultados : List RegistroPos
deriving Repr, DecidableEq

/-- Python truthiness of the programa_actual variable. -/
def truthyOpt : Option String → Bool
  | some s => s ≠ ""
  | none => false

/-- Python f-string rendering of programa_actual inside the composite
key: None prints as the four characters None. -/
def textoPrograma : Option String → String
  | some p => p
  | none => "None"

/-- egresados_posgrados.py line 202. -/
def campoCodigoPrograma (prog : Option String) : Option String :=
  if truthyOpt prog then extraerCodigoPrograma prog else some "Sin_Codigo"

/-- egresados_posgrados.py line 203. -/
def campoNombrePrograma (prog : Option String) : Option String :=
  if truthyOpt prog then extraerNombreProgramaLimpio prog else some "Sin_Programa"

/-- The cell text used for primera_col/segunda_col: stripped value when
the cell exists and is non-null, else the empty string. -/
def celdaRecortada (fila : List (Option String)) (i : Nat) : String :=
  match fila.get? i with
  | some (some v) => recorte v
  | _ => ""

/-- The record appended at egresados_posgrados.py lines 200-207. -/
def registroEmitido (cedulasEgresados : List String) (anio : Int)
    (programa : Option String) (nombre cedula : String) : RegistroPos :=
  { anio := anio
    programaCodigo := campoCodigoPrograma programa
    programaNombre := campoNombrePrograma programa
    nombre := nombre
    identificacion := cedula
    esEgresadoULibre := if cedula ∈ cedulasEgresados then "Sí" else "No" }

/-- One row of procesar_archivo_posgrados (egresados_posgrados.py lines
118-207), translated branch by branch: program-header detection in the
first two columns (with continue), program detection anywhere in the row
(without continue), the header-row and resolution/pensum skips, the cell
scan, and the deduplicated record emission keyed by cedula and current
program. -/
def pasoFilaPos (cedulasEgresados : List String) (anio : Int)
    (st : EstadoPos) (fila : List (Option String)) : EstadoPos :=
  let filaStr := recorte (unirEspacio (fila.filterMap id))
  let primeraCol := celdaRecortada fila 0
  let segundaCol := celdaRecortada fila 1
  if primeraCol ≠ "" ∧ 5 ≤ primeraCol.length ∧ primeros5Digitos primeraCol then
    { st with programaActual := some primeraCol }
  else if segundaCol ≠ "" ∧ 5 ≤ segundaCol.length ∧ primeros5Digitos segundaCol then
    { st with programaActual := some segundaCol }
  else
    let programa :=
      match fila.findSome?
          (fun c => c.bind (fun v => if esLineaPrograma (recorte v) then some (recorte v) else none)) with
      | some p => some p
      | none => st.programaActual
    if contiene filaStr "Nombre" ∧ contiene filaStr "Identificaci" then
      { st with programaActual := programa }
    else if primeraCol ≠ "" ∧ (contiene primeraCol "Pensum" ∨ contiene (mayus primeraCol) "RESOLUCION") then
      { st with programaActual := programa }
    else
      let esc := escanearCeldas fila
      match esc.nombreEncontrado, esc.cedulaEncontrada with
      | some nombre, some cedula =>
        let claveUnica := cedula ++ "_" ++ textoPrograma programa
        if claveUnica ∈ st.vistos then { st with programaActual := programa }
        else
          { programaActual := programa
            vistos := st.vistos ++ [claveUnica]
            resultados := st.resultados ++ [registroEmitido cedulasEgresados anio programa nombre cedula] }
      | _, _ => { st with programaActual := programa }

/-- The initial loop state of procesar_archivo_posgrados. -/
def estadoPosInicial : EstadoPos := ⟨none, [], []⟩

/-- egresados_posgrados.py, procesar_archivo_posgrados (lines 93-214):
fold the row step over the rows of the file. -/
def procesarArchivoPosgrados (filas : List (List (Option String)))
    (cedulasEgresados : List String) (anio : Int) : List RegistroPos :=
  (filas.foldl (pasoFilaPos cedulasEgresados anio) estadoPosInicial).resultados

/-! ## limpiar_csv_posgrados.py -/

/-- limpiar_csv_posgrados.py, extraer_codigo_programa (lines 14-27):
strip, split on whitespace, and return the first token that is all
digits and has length exactly 5, else none. -/
def extraerCodigoProgramaLimpiar : Option String → Option String
  | none => none
  | some texto => buscarToken5 (sepEspacios (recorte texto))
where
  /-- The for-loop over the tokens. -/
  buscarToken5 : List String → Option String
  | [] => none
  | p :: resto => if esDigitos p ∧ p.length = 5 then some p else buscarToken5 resto

/-- limpiar_csv_posgrados.py lines 43-48: the break-on-first-cut loop
over the RESOLUCION case variants; a variant occurring at index 0 does
not cut and does not break. -/
def varianteLoop (texto : String) : List String → String
  | [] => texto
  | v :: resto =>
    if contiene (mayus texto) v then
      match indiceSub (mayus texto) (mayus v) with
      | some idx =>
        if idx > 0 then recorte (String.mk (texto.data.take idx)) else varianteLoop texto resto
      | none => varianteLoop texto resto
    else varianteLoop texto resto

/-- limpiar_csv_posgrados.py, limpiar_nombre_programa (lines 30-50):
drop a leading 5-digit code token, then cut resolution metadata. -/
def limpiarNombrePrograma : Option String → String
  | none => ""
  | some s =>
    let t0 := recorte s
    let t1 :=
      match sepMaxUno t0 with
      | [a, b] => if esDigitos a ∧ a.length = 5 then b else t0
      | _ => t0
    recorte (varianteLoop t1 ["RESOLUCION", "RESOLUCIÓN", "Resolucion", "Resolución"])

/-- One cleaned student record (limpiar_csv_posgrados.py lines 132-141). -/
structure RegistroLimpio where
  anio : Int
  facultad : String
  codigoPrograma : String
  nombrePrograma : String
  nombreEstudiante : String
  cedula : String
  codigoEstudiante : String
  grupo : String
deriving Repr, DecidableEq

/-- Loop state of procesar_archivo_posgrados in limpiar_csv_posgrados.py. -/
structure EstadoLimpio where
  facultadActual : String
  programaCodigo : Option String
  programaNombre : String
  registros : List RegistroLimpio
deriving Repr, DecidableEq

/-- Running result of the numeric cell scan (limpiar lines 108-125). -/
structure EscaneoLimpio where
  cedulaEncontrada : Option String
  codigoEncontrado : Option String
  grupoEncontrado : Option String
deriving Repr, DecidableEq

/-- One cell of the limpiar scan: the row was filled with empty strings
for NaN, every stripped value of 6-12 digits feeds cedula then codigo,
and every stripped value of 1-3 digits reassigns grupo (last wins). -/
def pasoCeldaLimpiar (e : EscaneoLimpio) (celda : Option String) : EscaneoLimpio :=
  let vs := recorte (celda.getD "")
  let e1 :=
    if esDigitos vs ∧ 6 ≤ vs.length ∧ vs.length ≤ 12 then
      match e.cedulaEncontrada with
      | none => { e with cedulaEncontrada := some vs }
      | some _ =>
        match e.codigoEncontrado with
        | none => { e with codigoEncontrado := some vs }
        | some _ => e
    else e
  if esDigitos vs ∧ 1 ≤ vs.length ∧ vs.length ≤ 3 then
    { e1 with grupoEncontrado := some vs }
  else e1

/-- The full numeric cell scan of one row in limpiar_csv_posgrados.py. -/
def escanearCeldasLimpiar (fila : List (Option String)) : EscaneoLimpio :=
  fila.foldl pasoCeldaLimpiar ⟨none, none, none⟩

/-- One row of procesar_archivo_posgrados in limpiar_csv_posgrados.py
(lines 70-143): Facultad and Programa state rows, administrative skips,
student-name validation on the first column, the numeric scan, and
emission of the cleaned record (with no deduplication). -/
def pasoFilaLimpiar (anio : Int) (st : EstadoLimpio) (fila : List (Option String)) : EstadoLimpio :=
  let primeraCol := celdaRecortada fila 0
  let segundaCol := celdaRecortada fila 1
  if primeraCol = "Facultad" then { st with facultadActual := segundaCol }
  else if primeraCol = "Programa" then
    { st with programaCodigo := extraerCodigoProgramaLimpiar (some segundaCol)
              programaNombre := limpiarNombrePrograma (some segundaCol) }
  else if primeraCol = "Pensum" ∨ primeraCol = "Nivel" ∨ primeraCol = "Nombre" ∨ primeraCol = "" then st
  else if contiene (mayus primeraCol) "RESOLUCION" ∨ contiene (mayus primeraCol) "RESOLUCIÓN" then st
  else if primeraCol.length ≤ 5 then st
  else if !primeraCol.data.any esAlfa then st
  else if (["NIVEL", "NOMBRE", "FACULTAD", "PROGRAMA", "PENSUM"] : List String).contains (mayus primeraCol) then st
  else
    let esc := escanearCeldasLimpiar fila
    match esc.cedulaEncontrada with
    | none => st
    | some cedula =>
      if cedula.length < 6 then st
      else
        { st with registros := st.registros ++ [{
            anio := anio
            facultad := st.facultadActual
            codigoPrograma := st.programaCodigo.getD ""
            nombrePrograma := st.programaNombre
            nombreEstudiante := primeraCol
            cedula := cedula
            codigoEstudiante := esc.codigoEncontrado.getD ""
            grupo := esc.grupoEncontrado.getD "" }] }

/-- Initial loop state of the limpiar row loop. -/
def estadoLimpioInicial : EstadoLimpio := ⟨"", some "", "", []⟩

/-- limpiar_csv_posgrados.py, procesar_archivo_posgrados (lines 53-155). -/
def procesarArchivoLimpiar (filas : List (List (Option String))) (anio : Int) : List RegistroLimpio :=
  (filas.foldl (pasoFilaLimpiar anio) estadoLimpioInicial).registros

/-! ## totalxano.py and programas.py: extraer_programas_y_fechas -/

/-- Take exactly n digit characters from the front of the list,
returning them and the remainder. -/
def tomarDigitos : Nat → List Char → Option (List Char × List Char)
  | 0, l => some ([], l)
  | _ + 1, [] => none
  | n + 1, c :: t =>
    if esDigito c then (tomarDigitos n t).map (fun p => (c :: p.1, p.2)) else none

/-- Try to match, at the head of the list, the regex used at
totalxano.py/programas.py line 23: an opening parenthesis, optional
whitespace, four digits, a dash, two digits, a dash, two digits,
optional whitespace and a closing parenthesis.  On success, return the
three captured digit groups and the rest of the input. -/
def intentarFecha : List Char → Option (List Char × List Char × List Char × List Char)
  | '(' :: resto =>
    match tomarDigitos 4 (resto.dropWhile esEspacio) with
    | some (a, r2) =>
      match r2 with
      | '-' :: r3 =>
        match tomarDigitos 2 r3 with
        | some (m, r4) =>
          match r4 with
          | '-' :: r5 =>
            match tomarDigitos 2 r5 with
            | some (d, r6) =>
              match r6.dropWhile esEspacio with
              | ')' :: r7 => some (a, m, d, r7)
              | _ => none
            | none => none
          | _ => none
        | none => none
      | _ => none
    | none => none
  | _ => none

/-- The scan of re.findall: try the pattern at each position, and on a
match continue after it (non-overlapping, left to right).  The fuel
argument bounds the number of scan steps; every step consumes at least
one character, so an initial fuel equal to the input length makes the
zero-fuel branch unreachable. -/
def buscarFechasAux : Nat → List Char → List (List Char × List Char × List Char)
  | 0, _ => []
  | _ + 1, [] => []
  | combustible + 1, c :: t =>
    match intentarFecha (c :: t) with
    | some (a, m, d, resto) => (a, m, d) :: buscarFechasAux combustible resto
    | none => buscarFechasAux combustible t

/-- re.findall of the date pattern over a string. -/
def buscarFechas (l : List Char) : List (List Char × List Char × List Char) :=
  buscarFechasAux l.length l

/-- One entry of the list built by extraer_programas_y_fechas. -/
structure InfoPrograma where
  programa : String
  anio : Nat
  fechaCompleta : String
deriving Repr, DecidableEq

/-- The body of the for-loop of extraer_programas_y_fechas (lines 20-41)
for one segment: take the last date match, keep only years 2021-2025,
and take the nonempty text before the first parenthesis as the program
name; a segment with no date, an out-of-range year, or no text before
the first parenthesis contributes nothing. -/
def procesarSegmento (parte : String) : Option InfoPrograma :=
  match (buscarFechas parte.data).getLast? with
  | none => none
  | some (a, m, d) =>
    if 2021 ≤ natDeDigitos a ∧ natDeDigitos a ≤ 2025 then
      if (parte.data.takeWhile (fun c => c ≠ '(')).isEmpty then none
      else some { programa := recorte (String.mk (parte.data.takeWhile (fun c => c ≠ '(')))
                  anio := natDeDigitos a
                  fechaCompleta := toString (natDeDigitos a) ++ "-" ++ String.mk m ++ "-" ++
                    String.mk d }
    else none

/-- Python str.split on space-dash-space: cut at each non-overlapping occurrence of
space-dash-space, left to right. -/
def sepGuionesAux : List Char → List Char → List (List Char)
  | ' ' :: '-' :: ' ' :: resto, acc => acc.reverse :: sepGuionesAux resto []
  | c :: resto, acc => sepGuionesAux resto (c :: acc)
  | [], acc => [acc.reverse]

/-- totalxano.py/programas.py, extraer_programas_y_fechas (lines 7-43):
nothing for a missing or empty value, else one optional entry per
space-dash-space separated segment. -/
def extraerProgramasYFechas : Option String → List InfoPrograma
  | none => []
  | some s =>
    if s = "" then []
    else ((sepGuionesAux s.data []).map String.mk).filterMap procesarSegmento

/-! ## totalxano.py: unique-record dictionary -/

/-- One record of totalxano.py (lines 185-196), with the survey date it
carries while deduplication is in progress.  The survey date is an
abstract timestamp: none models both an absent date and the NaT result
of a failed parse (both are falsy in the script). -/
structure RegistroTotal where
  archivo : String
  documento : String
  nombre : String
  programa : String
  tipoPrograma : String
  anioGrado : Nat
  fechaGrado : String
  infoOcupacional : String
  cargo : String
  fechaEncuesta : Option Int
deriving Repr, DecidableEq

/-- totalxano.py lines 176-182: classify the program type by keyword. -/
def tipoDePrograma (programa : String) : String :=
  let u := mayus programa
  if contiene u "ESPECIALIZACIÓN" || contiene u "ESPECIALIZACION" then "ESPECIALIZACIÓN"
  else if contiene u "MAESTRÍA" || contiene u "MAESTRIA" then "MAESTRÍA"
  else if contiene u "DOCTORADO" then "DOCTORADO"
  else "PREGRADO"

/-- One survey row of the 2021-2025 files, with the fields totalxano.py
reads from it (each already passed through str and strip by the script;
recorte is applied here). -/
structure FilaEncuesta where
  programas : Option String
  nombres : String
  apellidos : String
  documento : String
  infoOcupacional : String
  cargo : String
  fechaEncuestaStr : String
deriving Repr, DecidableEq

/-- totalxano.py lines 158-162: full name, falling back to the document. -/
def nombreCompleto (f : FilaEncuesta) : String :=
  let nc := recorte (recorte f.nombres ++ " " ++ recorte f.apellidos)
  if nc = "" ∧ recorte f.documento ≠ "" then "Doc_" ++ recorte f.documento else nc

/-- The composite key of totalxano.py line 173. -/
def claveDeRegistro (r : RegistroTotal) : String :=
  r.nombre ++ "_" ++ r.programa ++ "_" ++ toString r.anioGrado

/-- totalxano.py lines 140-196 for one row: parse the survey date (the
pd.to_datetime library call is the parseFecha parameter; its NaT
result on failure is none), and emit one keyed record per extracted
program entry. -/
def registrosDeFila (archivo : String) (parseFecha : String → Option Int)
    (f : FilaEncuesta) : List (String × RegistroTotal) :=
  let documento := recorte f.documento
  let fechaStr := recorte f.fechaEncuestaStr
  let fecha := if fechaStr ≠ "" ∧ fechaStr ≠ "nan" then parseFecha fechaStr else none
  let nc := nombreCompleto f
  (extraerProgramasYFechas f.programas).map (fun pi =>
    let registro : RegistroTotal := {
      archivo := archivo
      documento := documento
      nombre := nc
      programa := pi.programa
      tipoPrograma := tipoDePrograma pi.programa
      anioGrado := pi.anio
      fechaGrado := pi.fechaCompleta
      infoOcupacional := recorte f.infoOcupacional
      cargo := recorte f.cargo
      fechaEncuesta := fecha }
    (claveDeRegistro registro, registro))

/-- totalxano.py lines 207-212: a new record replaces the stored one
exactly when the new record has a (truthy) survey date and either the
stored one has none or the new date is strictly later. -/
def superaA (nuevo viejo : Option Int) : Bool :=
  match nuevo, viejo with
  | some n, some v => n > v
  | some _, none => true
  | none, _ => false

/-- totalxano.py lines 198-212: one insertion into registros_unicos. -/
def actualizarRegistros (dict : List (String × RegistroTotal)) (clave : String)
    (nuevo : RegistroTotal) : List (String × RegistroTotal) :=
  match buscarClave dict clave with
  | none => dict ++ [(clave, nuevo)]
  | some viejo =>
    if superaA nuevo.fechaEncuesta viejo.fechaEncuesta then reemplazarClave dict clave nuevo
    else dict

/-- The registros_unicos dictionary after a sequence of insertions. -/
def construirRegistrosUnicos (entradas : List (String × RegistroTotal)) :
    List (String × RegistroTotal) :=
  entradas.foldl (fun d kr => actualizarRegistros d kr.1 kr.2) []

/-- The full insertion sequence of totalxano.py: both files, every row,
every extracted program entry, in order. -/
def entradasTotal (parseFecha : String → Option Int)
    (archivos : List (String × List FilaEncuesta)) : List (String × RegistroTotal) :=
  archivos.flatMap (fun par => par.2.flatMap (registrosDeFila par.1 parseFecha))

/-- totalxano.py, analizar_todos_egresados deduplication (lines 66-222):
the registros_unicos dictionary built from the whole input. -/
def registrosUnicosTotal (parseFecha : String → Option Int)
    (archivos : List (String × List FilaEncuesta)) : List (String × RegistroTotal) :=
  construirRegistrosUnicos (entradasTotal parseFecha archivos)

/-! ## app.py: analizar_cargos_directivos -/

/-- app.py lines 24-29: the keyword list (the word lider appears twice in the
source and is kept twice). -/
def palabrasDirectivas : List String :=
  ["gerente", "director", "jefe", "coordinador", "supervisor",
   "presidente", "vicepresidente", "subdirector", "subgerente",
   "juez", "rector", "juridico", "lider", "lider", "administrador",
   "ejecutivo", "manager", "chief"]

/-- One row of a survey file as read by app.py, with the fields the scan
uses; cargo is Option String because the column is only notna-filtered. -/
structure FilaCargos where
  cargo : Option String
  nombres : String
  apellidos : String
  programas : String
  empresa : String
deriving Repr, DecidableEq

/-- One emitted row of app.py lines 113-119. -/
structure RegistroCargo where
  archivo : String
  nombre : String
  cargo : String
  programa : String
  empresa : String
deriving Repr, DecidableEq

/-- app.py lines 97-127 for one file: drop rows whose cargo is null or
empty, then append one record for every row whose lowercased cargo
contains a directive keyword.  No key is built and nothing is
deduplicated. -/
def cargosDirectivos (archivo : String) (filas : List FilaCargos) : List RegistroCargo :=
  let filasValidas := filas.filter (fun f => f.cargo ≠ none ∧ f.cargo ≠ some "")
  filasValidas.foldl
    (fun acc f =>
      let cargoStr := f.cargo.getD ""
      let cargoMin := minus cargoStr
      if palabrasDirectivas.any (fun palabra => contiene cargoMin palabra) then
        acc ++ [{ archivo := archivo
                  nombre := recorte (f.nombres ++ " " ++ f.apellidos)
                  cargo := cargoStr
                  programa := f.programas
                  empresa := f.empresa }]
      else acc) []

/-! ## The per-file try/except loops of app.py and totalxano.py -/

/-- The per-file loop of app.py lines 34-138 and totalxano.py lines
69-222: processing of one file is a fallible computation; on success its
records extend the accumulator, on an exception the error is reported
and the loop continues with the accumulator unchanged. -/
def procesarConCaptura {α β : Type} (procesar : α → Except String (List β))
    (archivos : List α) : List β :=
  archivos.foldl
    (fun acc archivo =>
      match procesar archivo with
      | Except.ok registros => acc ++ registros
      | Except.error _ => acc) []

/-! ## Encoding fallback chains -/

/-- The encodings named by the scripts. -/
inductive Codificacion where
  | utf8
  | latin1
  | iso88591
  | cp1252
  | utf8sig
deriving Repr, DecidableEq

/-- The for-else loop over an encoding list: try each encoding in order,
stop at the first successful parse, none when every attempt fails. -/
def leerConCodificaciones {α : Type} (parse : Codificacion → Option α) :
    List Codificacion → Option α
  | [] => none
  | e :: resto =>
    match parse e with
    | some df => some df
    | none => leerConCodificaciones parse resto

/-- Chain of egresados_posgrados.py lines 21-26 and 102-107 and
egresados_posgrados_limpios.py lines 24-29. -/
def cadenaCargadores : List Codificacion :=
  [Codificacion.utf8, Codificacion.latin1, Codificacion.iso88591, Codificacion.cp1252]

/-- Chain of limpiar_csv_posgrados.py lines 60-63. -/
def cadenaLimpiar : List Codificacion := [Codificacion.utf8, Codificacion.latin1]

/-- Chain of app.py lines 45-50 and 60-63, totalxano.py lines 79-84 and
94-97, and verificar_valores.py lines 15-20 and 28-31. -/
def cadenaEncuestas : List Codificacion := [Codificacion.utf8, Codificacion.latin1]

/-- The single-encoding read of egresados_posgrados_limpios.py line 194:
pd.read_csv(..., encoding equal to utf-8-sig) with no fallback. -/
def cadenaLecturaLimpios : List Codificacion := [Codificacion.utf8sig]

/-- The single-encoding read of programas.py line 75:
pd.read_csv(..., encoding equal to utf-8-sig) with no fallback. -/
def cadenaLecturaProgramas : List Codificacion := [Codificacion.utf8sig]

/-! ## The CSV read/write call sites and their separators -/

/-- One pd.read_csv or DataFrame.to_csv call on a CSV path, with the
separator it passes (the pandas default separator is the comma). -/
structure LlamadaCsv where
  script : String
  linea : Nat
  esLectura : Bool
  sep : String
deriving Repr, DecidableEq

/-- Every pd.read_csv and to_csv call on a CSV path in the repository,
with the separator each one uses. -/
def llamadasCsv : List LlamadaCsv :=
  [⟨"egresados_posgrados.py", 23, true, ";"⟩,
   ⟨"egresados_posgrados.py", 104, true, ";"⟩,
   ⟨"egresados_posgrados.py", 227, false, ";"⟩,
   ⟨"egresados_posgrados.py", 252, false, ";"⟩,
   ⟨"egresados_posgrados.py", 269, false, ";"⟩,
   ⟨"egresados_posgrados.py", 284, false, ";"⟩,
   ⟨"limpiar_csv_posgrados.py", 61, true, ";"⟩,
   ⟨"limpiar_csv_posgrados.py", 63, true, ";"⟩,
   ⟨"limpiar_csv_posgrados.py", 198, false, ";"⟩,
   ⟨"limpiar_csv_posgrados.py", 209, false, ";"⟩,
   ⟨"egresados_posgrados_limpios.py", 26, true, ";"⟩,
   ⟨"egresados_posgrados_limpios.py", 194, true, ";"⟩,
   ⟨"egresados_posgrados_limpios.py", 242, false, ";"⟩,
   ⟨"egresados_posgrados_limpios.py", 267, false, ";"⟩,
   ⟨"egresados_posgrados_limpios.py", 300, false, ";"⟩,
   ⟨"egresados_posgrados_limpios.py", 321, false, ";"⟩,
   ⟨"app.py", 61, true, ";"⟩,
   ⟨"app.py", 63, true, ";"⟩,
   ⟨"app.py", 172, false, ","⟩,
   ⟨"totalxano.py", 95, true, ";"⟩,
   ⟨"totalxano.py", 97, true, ";"⟩,
   ⟨"totalxano.py", 322, false, ","⟩,
   ⟨"programas.py", 75, true, ","⟩,
   ⟨"programas.py", 214, false, ","⟩,
   ⟨"verificar_valores.py", 29, true, ";"⟩,
   ⟨"verificar_valores.py", 31, true, ";"⟩]

/-! ## egresados_posgrados_limpios.py -/

/-- egresados_posgrados_limpios.py, extraer_tipo_y_nombre_programa
(lines 107-122): the program type by keyword or the leading digits of the code, and the
uppercased, stripped name. -/
def extraerTipoYNombrePrograma (codigoPrograma nombrePrograma : String) :
    Option String × String :=
  let nombreUpper := recorte (mayus nombrePrograma)
  let tipo :=
    if contiene nombreUpper "ESPECIALIZACION" || empiezaCon "32".data codigoPrograma.data then
      some "ESPECIALIZACION"
    else if contiene nombreUpper "MAESTRIA" || contiene nombreUpper "MAESTRÍA" ||
        empiezaCon "34".data codigoPrograma.data then
      some "MAESTRIA"
    else if contiene nombreUpper "DOCTORADO" then some "DOCTORADO"
    else none
  (tipo, nombreUpper)

/-- egresados_posgrados_limpios.py lines 148-160: does a stored title
count as the same program as the one currently being taken?  Only
possible when the current program has a recognised type occurring in the
title; then both names, with the type keyword and every occurrence of
the letters EN removed and stripped, must contain one another. -/
def esMismoProgramaTitulo (tipoActual : Option String) (nombreActual tituloUpper : String) :
    Bool :=
  match tipoActual with
  | none => false
  | some tipo =>
    if contiene tituloUpper tipo then
      let nombreEnTitulo := recorte (reemplazar (reemplazar tituloUpper tipo "") "EN" "")
      let nombreActualLimpio := recorte (reemplazar (reemplazar nombreActual tipo "") "EN" "")
      contiene nombreActualLimpio nombreEnTitulo || contiene nombreEnTitulo nombreActualLimpio
    else false

/-- egresados_posgrados_limpios.py, verificar_egresado_otro_programa
(lines 125-182).  The historical database is the dictionary built by
cargar_base_datos_egresados_detallada: cedula to list of (title,
optional graduation year); a None year models a missing or unparseable
graduation date.  A title is collected when it is not the same program
and its graduation year is known and strictly earlier than the
(int-parsed) enrolment year; the parse failure of the enrolment year is
the caught ValueError, under which no title ever qualifies. -/
def verificarEgresadoOtroPrograma (cedula anioCursando codigoProgramaActual
    nombreProgramaActual : String)
    (egresadosDetalle : List (String × List (String × Option Int))) : Bool × List String :=
  match buscarClave egresadosDetalle cedula with
  | none => (false, [])
  | some titulosConFecha =>
    let par := extraerTipoYNombrePrograma codigoProgramaActual nombreProgramaActual
    let programasDiferentes := titulosConFecha.foldl
      (fun acc tf =>
        let tituloUpper := recorte (mayus tf.1)
        let esMismo := esMismoProgramaTitulo par.1 par.2 tituloUpper
        match tf.2, pyEntero anioCursando with
        | some anioGrado, some anioCursandoInt =>
          if ¬ esMismo ∧ anioGrado < anioCursandoInt then
            acc ++ [tf.1 ++ " (" ++ toString anioGrado ++ ")"]
          else acc
        | _, _ => acc) []
    (!programasDiferentes.isEmpty, programasDiferentes)

/-- The per-title test of verificar_egresado_otro_programa, resolved
for a successfully parsed enrolment year y: a title contributes its
formatted entry exactly when it is not the same program and its known
graduation year is strictly earlier than y. -/
def pasoTitulo (par : Option String × String) (y : Int) (tf : String × Option Int) :
    Option String :=
  match tf.2 with
  | some g =>
    if esMismoProgramaTitulo par.1 par.2 (recorte (mayus tf.1)) = false ∧ g < y then
      some (tf.1 ++ " (" ++ toString g ++ ")")
    else none
  | none => none

/-- One row of the consolidated result list fed to generar_reportes
(egresados_posgrados_limpios.py lines 210-218); the year is a string
because the cleaned files are read with dtype str. -/
structure RegistroFinal where
  anio : String
  programaCodigo : String
  programaNombre : String
  nombre : String
  identificacion : String
  esEgresadoULibre : String
  programasPrevios : String
deriving Repr, DecidableEq

/-- One summary row written per year by generar_reportes
(egresados_posgrados_limpios.py lines 252-260).  The percentage is kept
as an exact count of hundredths (the script rounds the ratio times 100
to 2 decimal places). -/
structure FilaResumen where
  codigoPrograma : String
  nombrePrograma : String
  totalEstudiantes : Nat
  egresadosULibre : Nat
  noEgresados : Nat
  porcentajeCent : Nat
deriving Repr, DecidableEq

/-- The number of hundredths in eg/total*100 rounded to 2 decimals with
ties broken to even, the rule shared by numpy, pandas .round and the
Python round builtin: the quotient of 10000 eg by total, incremented
when the remainder exceeds half the divisor, and on an exact half
incremented only when the quotient is odd. -/
def porcentajeRedondeado (eg total : Nat) : Nat :=
  if 2 * (10000 * eg % total) < total then 10000 * eg / total
  else if total < 2 * (10000 * eg % total) then 10000 * eg / total + 1
  else if 10000 * eg / total % 2 = 0 then 10000 * eg / total
  else 10000 * eg / total + 1

/-- Character-code lexicographic order on strings, the order pandas uses
to sort string keys. -/
def lexLe : List Char → List Char → Bool
  | [], _ => true
  | _ :: _, [] => false
  | a :: as, b :: bs => if a = b then lexLe as bs else decide (a.toNat < b.toNat)

/-- Insertion into a sorted list. -/
def insertarOrden (s : String) : List String → List String
  | [] => [s]
  | x :: t => if lexLe s.data x.data then s :: x :: t else x :: insertarOrden s t

/-- Sort a list of strings (pandas groupby sorts its keys, and the
script sorts again by program code). -/
def ordenarCadenas (l : List String) : List String := l.foldr insertarOrden []

/-- The groupby-aggregate of egresados_posgrados_limpios.py lines
252-260 over the rows of one year: one summary row per program code,
counting the group size, the Sí entries, their difference, and the
rounded percentage; the program name is the first of the group. -/
def resumenPorPrograma (dfAnio : List RegistroFinal) : List FilaResumen :=
  (ordenarCadenas (unicos (dfAnio.map (fun r => r.programaCodigo)))).map
    (fun codigo =>
      let grupo := dfAnio.filter (fun r => r.programaCodigo = codigo)
      let total := grupo.length
      let egresados := grupo.countP (fun r => r.esEgresadoULibre = "Sí")
      { codigoPrograma := codigo
        nombrePrograma := (grupo.map (fun r => r.programaNombre)).headD ""
        totalEstudiantes := total
        egresadosULibre := egresados
        noEgresados := total - egresados
        porcentajeCent := porcentajeRedondeado egresados total })

/-- The per-year summary of generar_reportes in
egresados_posgrados_limpios.py: restrict to the year, then aggregate. -/
def resumenAnioLimpios (registros : List RegistroFinal) (anio : String) : List FilaResumen :=
  resumenPorPrograma (registros.filter (fun r => r.anio = anio))

/-- One summary row of egresados_posgrados.py lines 236-245 (same
aggregation, no No_Egresados column; the program fields are optional as
in RegistroPos, and pandas drops groups whose key is null). -/
structure FilaResumenPos where
  codigoPrograma : String
  nombrePrograma : Option String
  totalEstudiantes : Nat
  egresadosULibre : Nat
  porcentajeCent : Nat
deriving Repr, DecidableEq

/-- The groupby-aggregate of egresados_posgrados.py lines 236-245 over
the records of one year: groups are the non-null program codes. -/
def resumenAnioPosgrados (registros : List RegistroPos) (anio : Int) : List FilaResumenPos :=
  let dfAnio := registros.filter (fun r => r.anio = anio)
  (ordenarCadenas (unicos (dfAnio.filterMap (fun r => r.programaCodigo)))).map
    (fun codigo =>
      let grupo := dfAnio.filter (fun r => r.programaCodigo = some codigo)
      let total := grupo.length
      let egresados := grupo.countP (fun r => r.esEgresadoULibre = "Sí")
      { codigoPrograma := codigo
        nombrePrograma := (grupo.map (fun r => r.programaNombre)).headD none
        totalEstudiantes := total
        egresadosULibre := egresados
        porcentajeCent := porcentajeRedondeado egresados total })

/-! ## Derived views used by the stated properties -/

/-- The stripped non-null cell values of a row that pass the cedula
test of egresados_posgrados.py, in column order. -/
def valoresCedulaPos (fila : List (Option String)) : List String :=
  ((fila.filterMap id).map recorte).filter esCedulaCandidata

/-- The stripped cell values of a row (NaN filled with the empty
string) that pass the 6-12 digit test of limpiar_csv_posgrados.py, in
column order. -/
def valoresCedulaLimpiar (fila : List (Option String)) : List String :=
  (fila.map (fun c => recorte (c.getD ""))).filter
    (fun vs => esDigitos vs && 6 ≤ vs.length && vs.length ≤ 12)

/-- Order on optional survey dates: an absent date is earlier than any
date.  The record kept by totalxano.py is maximal in this order. -/
def fechaMenorIgual : Option Int → Option Int → Bool
  | none, _ => true
  | some _, none => false
  | some a, some b => decide (a ≤ b)

/-- Rounding of a rational to the nearest integer with ties broken to
the even neighbour, the rule of numpy, pandas .round and the Python
round builtin. -/
def redondearParEntero (x : ℚ) : ℤ :=
  if Int.fract x < 1 / 2 then ⌊x⌋
  else if 1 / 2 < Int.fract x then ⌊x⌋ + 1
  else if ⌊x⌋ % 2 = 0 then ⌊x⌋ else ⌊x⌋ + 1

/-- Rounding of a rational to 2 decimal places with ties to even, the
reference meaning of the round(x, 2) call in the scripts. -/
def redondear2 (x : ℚ) : ℚ := ((redondearParEntero (x * 100) : ℤ) : ℚ) / 100

set_option maxHeartbeats 1000000 in
theorem pasoFilaPos_caracterizacion (ceds : List String) (anio : Int) (st : EstadoPos)
    (fila : List (Option String)) :
    ((pasoFilaPos ceds anio st fila).resultados = st.resultados ∧
      (pasoFilaPos ceds anio st fila).vistos = st.vistos) ∨
    ∃ nombre cedula programa,
      (escanearCeldas fila).nombreEncontrado = some nombre ∧
      (escanearCeldas fila).cedulaEncontrada = some cedula ∧
      (cedula ++ "_" ++ textoPrograma programa) ∉ st.vistos ∧
      (pasoFilaPos ceds anio st fila).resultados =
        st.resultados ++ [registroEmitido ceds anio programa nombre cedula] ∧
      (pasoFilaPos ceds anio st fila).vistos =
        st.vistos ++ [cedula ++ "_" ++ textoPrograma programa] := by
  simp only [pasoFilaPos]
  repeat' split
  all_goals try exact Or.inl ⟨rfl, rfl⟩
  all_goals
    refine Or.inr ⟨_, _, _, by assumption, by assumption, ?_, rfl, rfl⟩
  · rename_i hni x s heq
    rw [heq] at hni
    exact hni
  · rename_i hni x heq
    rw [heq] at hni
    exact hni

theorem registroEmitido_esEgresado (ceds : List String) (anio : Int) (programa : Option String)
    (nombre cedula : String) :
    ((registroEmitido ceds anio programa nombre cedula).esEgresadoULibre = "Sí" ↔
      (registroEmitido ceds anio programa nombre cedula).identificacion ∈ ceds) := by
  show (if cedula ∈ ceds then "Sí" else "No") = "Sí" ↔ cedula ∈ ceds
  split
  · exact iff_of_true rfl (by assumption)
  · exact iff_of_false (by decide) (by assumption)

theorem foldl_pasoFilaPos_invariante (ceds : List String) (anio : Int) :
    ∀ (filas : List (List (Option String))) (st : EstadoPos),
      (∀ r ∈ st.resultados, (r.esEgresadoULibre = "Sí" ↔ r.identificacion ∈ ceds)) →
      ∀ r ∈ (filas.foldl (pasoFilaPos ceds anio) st).resultados,
        (r.esEgresadoULibre = "Sí" ↔ r.identificacion ∈ ceds) := by
  intro filas
  induction filas with
  | nil => intro st h; exact h
  | cons fila resto ih =>
    intro st h
    simp only [List.foldl_cons]
    apply ih
    intro r hr
    rcases pasoFilaPos_caracterizacion ceds anio st fila with ⟨hres, _⟩ | ⟨n, c, p, _, _, _, hres, _⟩
    · rw [hres] at hr; exact h r hr
    · rw [hres] at hr
      rcases List.mem_append.mp hr with hr | hr
      · exact h r hr
      · have hr2 : r = registroEmitido ceds anio p n c := List.mem_singleton.mp hr
        rw [hr2]
        exact registroEmitido_esEgresado ceds anio p n c

/-- C1: in egresados_posgrados.py, the Es_Egresado_ULibre field of every
record extracted by procesar_archivo_posgrados is Sí exactly when the
extracted (stripped) cedula string of the record belongs to the set of cedula
strings loaded by cargar_base_datos_egresados; no other field takes part
in this classification. -/
theorem egresado_join_por_cedula (columnaCedula : List (Option String))
    (filas : List (List (Option String))) (anio : Int) (r : RegistroPos)
    (hr : r ∈ procesarArchivoPosgrados filas (cargarBaseDatosEgresados columnaCedula) anio) :
    (r.esEgresadoULibre = "Sí" ↔ r.identificacion ∈ cargarBaseDatosEgresados columnaCedula) :=
  foldl_pasoFilaPos_invariante (cargarBaseDatosEgresados columnaCedula) anio filas
    estadoPosInicial (by intro r hr; cases hr) r hr

/-- C1 witness: the theorem applied to one concrete database column and
one concrete student row. -/
theorem egresado_join_por_cedula_aplicado :
    ((⟨2021, some "Sin_Codigo", some "Sin_Programa", "MARIA PEREZ", "1234567", "Sí"⟩ :
        RegistroPos).esEgresadoULibre = "Sí" ↔
      (⟨2021, some "Sin_Codigo", some "Sin_Programa", "MARIA PEREZ", "1234567", "Sí"⟩ :
        RegistroPos).identificacion ∈ cargarBaseDatosEgresados [some "1234567", some " nan "]) :=
  egresado_join_por_cedula [some "1234567", some " nan "]
    [[some "x", some "MARIA PEREZ", some "1234567"]] 2021 _ (by decide)

theorem valoresCedulaPos_cons_none (t : List (Option String)) :
    valoresCedulaPos (none :: t) = valoresCedulaPos t := by
  simp [valoresCedulaPos]

theorem valoresCedulaPos_cons_some (v : String) (t : List (Option String)) :
    valoresCedulaPos (some v :: t) =
      (if esCedulaCandidata (recorte v) then [recorte v] else []) ++ valoresCedulaPos t := by
  simp only [valoresCedulaPos, List.filterMap_cons, id]
  rw [List.map_cons, List.filter_cons]
  split <;> simp_all

theorem escaneo_fold : ∀ (fila : List (Option String)) (n0 c0 d0 : Option String),
    ((fila.foldl pasoCelda ⟨n0, c0, d0⟩).cedulaEncontrada =
      (match c0 with
        | some c => some c
        | none => (valoresCedulaPos fila).get? 0)) ∧
    ((fila.foldl pasoCelda ⟨n0, c0, d0⟩).codigoEncontrado =
      (match d0, c0 with
        | some d, _ => some d
        | none, some _ => (valoresCedulaPos fila).get? 0
        | none, none => (valoresCedulaPos fila).get? 1)) := by
  intro fila
  induction fila with
  | nil =>
    intro n0 c0 d0
    cases c0 <;> cases d0 <;> simp [valoresCedulaPos]
  | cons celda t ih =>
    intro n0 c0 d0
    cases celda with
    | none =>
      rw [List.foldl_cons, valoresCedulaPos_cons_none]
      exact ih n0 c0 d0
    | some v =>
      rw [List.foldl_cons, valoresCedulaPos_cons_some]
      by_cases hn : esNombreCandidato (recorte v) <;>
        by_cases hcand : esCedulaCandidata (recorte v) <;>
        cases c0 <;> cases d0 <;>
        simp [pasoCelda, hn, hcand, ih]

theorem escanearCeldas_cedula (fila : List (Option String)) :
    (escanearCeldas fila).cedulaEncontrada = (valoresCedulaPos fila).get? 0 ∧
    (escanearCeldas fila).codigoEncontrado = (valoresCedulaPos fila).get? 1 :=
  escaneo_fold fila none none none

theorem pasoFilaPos_sinCedula (ceds : List String) (anio : Int) (st : EstadoPos)
    (fila : List (Option String)) (h : valoresCedulaPos fila = []) :
    (pasoFilaPos ceds anio st fila).resultados = st.resultados := by
  rcases pasoFilaPos_caracterizacion ceds anio st fila with ⟨hres, _⟩ | ⟨n, c, p, _, hc, _, _, _⟩
  · exact hres
  · rw [(escanearCeldas_cedula fila).1, h] at hc
    cases hc

theorem pasoFilaPos_emision (ceds : List String) (anio : Int) (st : EstadoPos)
    (fila : List (Option String)) (r : RegistroPos)
    (h : (pasoFilaPos ceds anio st fila).resultados = st.resultados ++ [r]) :
    some r.identificacion = (valoresCedulaPos fila).get? 0 := by
  rcases pasoFilaPos_caracterizacion ceds anio st fila with ⟨hres, _⟩ | ⟨n, c, p, _, hc, _, hres, _⟩
  · rw [hres] at h
    have := congrArg List.length h
    simp at this
  · rw [hres] at h
    have hr : r = registroEmitido ceds anio p n c := by
      have := List.append_inj_right h rfl
      exact (List.singleton_injective this).symm
    rw [hr]
    rw [(escanearCeldas_cedula fila).1] at hc
    exact hc.symm

theorem pasoFilaLimpiar_caracterizacion (anio : Int) (st : EstadoLimpio)
    (fila : List (Option String)) :
    (pasoFilaLimpiar anio st fila).registros = st.registros ∨
    ∃ ced, (escanearCeldasLimpiar fila).cedulaEncontrada = some ced ∧
      (pasoFilaLimpiar anio st fila).registros = st.registros ++
        [⟨anio, st.facultadActual, st.programaCodigo.getD "", st.programaNombre,
          celdaRecortada fila 0, ced, (escanearCeldasLimpiar fila).codigoEncontrado.getD "",
          (escanearCeldasLimpiar fila).grupoEncontrado.getD ""⟩] := by
  simp only [pasoFilaLimpiar]
  repeat' split
  all_goals try exact Or.inl rfl
  exact Or.inr ⟨_, by assumption, rfl⟩

theorem valoresCedulaLimpiar_cons (c : Option String) (t : List (Option String)) :
    valoresCedulaLimpiar (c :: t) =
      (if esDigitos (recorte (c.getD "")) ∧ 6 ≤ (recorte (c.getD "")).length ∧
          (recorte (c.getD "")).length ≤ 12 then [recorte (c.getD "")] else []) ++
        valoresCedulaLimpiar t := by
  simp only [valoresCedulaLimpiar, List.map_cons, List.filter_cons]
  split <;> split <;> simp_all

set_option maxHeartbeats 2000000 in
theorem escaneoLimpiar_fold : ∀ (fila : List (Option String)) (c0 d0 g0 : Option String),
    ((fila.foldl pasoCeldaLimpiar ⟨c0, d0, g0⟩).cedulaEncontrada =
      (match c0 with
        | some c => some c
        | none => (valoresCedulaLimpiar fila).get? 0)) ∧
    ((fila.foldl pasoCeldaLimpiar ⟨c0, d0, g0⟩).codigoEncontrado =
      (match d0, c0 with
        | some d, _ => some d
        | none, some _ => (valoresCedulaLimpiar fila).get? 0
        | none, none => (valoresCedulaLimpiar fila).get? 1)) := by
  intro fila
  induction fila with
  | nil =>
    intro c0 d0 g0
    cases c0 <;> cases d0 <;> simp [valoresCedulaLimpiar]
  | cons celda t ih =>
    intro c0 d0 g0
    rw [List.foldl_cons, valoresCedulaLimpiar_cons]
    by_cases hdig : esDigitos (recorte (celda.getD "")) = true <;>
      by_cases h6 : 6 ≤ (recorte (celda.getD "")).length <;>
      by_cases h12 : (recorte (celda.getD "")).length ≤ 12 <;>
      by_cases h1 : 1 ≤ (recorte (celda.getD "")).length <;>
      by_cases h3 : (recorte (celda.getD "")).length ≤ 3 <;>
      cases c0 <;> cases d0 <;>
      simp [pasoCeldaLimpiar, hdig, h6, h12, h1, h3, ih]

theorem pasoFilaLimpiar_sinCedula (anio : Int) (st : EstadoLimpio)
    (fila : List (Option String)) (h : valoresCedulaLimpiar fila = []) :
    (pasoFilaLimpiar anio st fila).registros = st.registros := by
  rcases pasoFilaLimpiar_caracterizacion anio st fila with hres | ⟨ced, hc, _⟩
  · exact hres
  · rw [show (escanearCeldasLimpiar fila).cedulaEncontrada =
        (valoresCedulaLimpiar fila).get? 0 from (escaneoLimpiar_fold fila none none none).1,
      h] at hc
    cases hc

theorem pasoFilaLimpiar_emision (anio : Int) (st : EstadoLimpio)
    (fila : List (Option String)) (r : RegistroLimpio)
    (h : (pasoFilaLimpiar anio st fila).registros = st.registros ++ [r]) :
    some r.cedula = (valoresCedulaLimpiar fila).get? 0 := by
  rcases pasoFilaLimpiar_caracterizacion anio st fila with hres | ⟨ced, hc, hres⟩
  · rw [hres] at h
    have := congrArg List.length h
    simp at this
  · rw [hres] at h
    have hr := (List.singleton_injective (List.append_inj_right h rfl)).symm
    rw [hr]
    rw [show (escanearCeldasLimpiar fila).cedulaEncontrada =
        (valoresCedulaLimpiar fila).get? 0 from (escaneoLimpiar_fold fila none none none).1] at hc
    exact hc.symm

/-- C2: in both row scanners, the value classified as the cedula is the
first cell value (in column order) that is all digits with length 6-12
(egresados_posgrados.py additionally excludes the five period literals),
the second such value is classified as the student code, a row emitting
a record takes its ID from that first qualifying value, and a row with
no qualifying value emits no record. -/
theorem clasificacion_por_longitud_digitos :
    (∀ fila : List (Option String),
      (escanearCeldas fila).cedulaEncontrada = (valoresCedulaPos fila).get? 0 ∧
      (escanearCeldas fila).codigoEncontrado = (valoresCedulaPos fila).get? 1) ∧
    (∀ (ceds : List String) (anio : Int) (st : EstadoPos) (fila : List (Option String))
      (r : RegistroPos),
      (pasoFilaPos ceds anio st fila).resultados = st.resultados ++ [r] →
      some r.identificacion = (valoresCedulaPos fila).get? 0) ∧
    (∀ (ceds : List String) (anio : Int) (st : EstadoPos) (fila : List (Option String)),
      valoresCedulaPos fila = [] → (pasoFilaPos ceds anio st fila).resultados = st.resultados) ∧
    (∀ fila : List (Option String),
      (escanearCeldasLimpiar fila).cedulaEncontrada = (valoresCedulaLimpiar fila).get? 0 ∧
      (escanearCeldasLimpiar fila).codigoEncontrado = (valoresCedulaLimpiar fila).get? 1) ∧
    (∀ (anio : Int) (st : EstadoLimpio) (fila : List (Option String)) (r : RegistroLimpio),
      (pasoFilaLimpiar anio st fila).registros = st.registros ++ [r] →
      some r.cedula = (valoresCedulaLimpiar fila).get? 0) ∧
    (∀ (anio : Int) (st : EstadoLimpio) (fila : List (Option String)),
      valoresCedulaLimpiar fila = [] → (pasoFilaLimpiar anio st fila).registros = st.registros) :=
  ⟨fun fila => escanearCeldas_cedula fila,
   fun ceds anio st fila r h => pasoFilaPos_emision ceds anio st fila r h,
   fun ceds anio st fila h => pasoFilaPos_sinCedula ceds anio st fila h,
   fun fila => ⟨(escaneoLimpiar_fold fila none none none).1,
     (escaneoLimpiar_fold fila none none none).2⟩,
   fun anio st fila r h => pasoFilaLimpiar_emision anio st fila r h,
   fun anio st fila h => pasoFilaLimpiar_sinCedula anio st fila h⟩

/-- C2 witness: the emission conjunct applied to one concrete student
row with two qualifying digit strings. -/
theorem clasificacion_por_longitud_digitos_aplicado :
    some (⟨2021, some "Sin_Codigo", some "Sin_Programa", "MARIA PEREZ", "1234567",
        "No"⟩ : RegistroPos).identificacion =
      (valoresCedulaPos [some "x", some "MARIA PEREZ", some "1234567", some "987654"]).get? 0 :=
  clasificacion_por_longitud_digitos.2.1 [] 2021 estadoPosInicial
    [some "x", some "MARIA PEREZ", some "1234567", some "987654"] _ (by decide)

/-- C3 counterexample: the egresados_posgrados.py version of
extraer_codigo_programa has no length check, so on a program string
whose first token is 123 it returns 123, a non-None result that is not
a string of exactly 5 digits. -/
theorem codigo_programa_contraejemplo :
    extraerCodigoPrograma (some "123 ESPECIALIZACION EJEMPLO") = some "123" ∧
    ¬ ("123" : String).length = 5 := by decide

theorem buscarToken5_find (l : List String) :
    extraerCodigoProgramaLimpiar.buscarToken5 l =
      l.find? (fun t => esDigitos t && t.length == 5) := by
  induction l with
  | nil => rfl
  | cons p resto ih =>
    by_cases h1 : esDigitos p = true <;> by_cases h2 : p.length = 5 <;>
      simp [extraerCodigoProgramaLimpiar.buscarToken5, List.find?_cons, h1, h2, ih]

/-- C3 amended: in limpiar_csv_posgrados.py, extraer_codigo_programa
returns the first whitespace token of exactly 5 digits when one exists
(none otherwise), and every non-None result is a 5-digit string; in
egresados_posgrados.py it returns the first whitespace token exactly
when that token is all digits, with no length-5 requirement, so its
results can have any digit length. -/
theorem codigo_programa_corregido :
    (∀ texto : String, extraerCodigoProgramaLimpiar (some texto) =
      (sepEspacios (recorte texto)).find? (fun t => esDigitos t && t.length == 5)) ∧
    (∀ texto c, extraerCodigoProgramaLimpiar (some texto) = some c →
      esDigitos c = true ∧ c.length = 5) ∧
    (∀ nombre c, extraerCodigoPrograma (some nombre) = some c ↔
      ((sepEspacios (recorte nombre)).head? = some c ∧ esDigitos c = true)) ∧
    extraerCodigoPrograma none = none ∧ extraerCodigoProgramaLimpiar none = none := by
  refine ⟨fun texto => buscarToken5_find _, ?_, ?_, rfl, rfl⟩
  · intro texto c h
    rw [show extraerCodigoProgramaLimpiar (some texto) =
      extraerCodigoProgramaLimpiar.buscarToken5 (sepEspacios (recorte texto)) from rfl,
      buscarToken5_find] at h
    have := List.find?_some h
    simp only [Bool.and_eq_true, beq_iff_eq] at this
    exact this
  · intro nombre c
    show (match sepEspacios (recorte nombre) with
      | [] => none
      | p :: _ => if esDigitos p then some p else none) = some c ↔ _
    cases hl : sepEspacios (recorte nombre) with
    | nil => simp
    | cons p resto =>
      show (if esDigitos p = true then some p else none) = some c ↔
        (p :: resto).head? = some c ∧ esDigitos c = true
      by_cases hd : esDigitos p = true
      · rw [if_pos hd]
        constructor
        · intro h
          injection h with h
          subst h
          exact ⟨rfl, hd⟩
        · rintro ⟨h1, _⟩
          exact h1
      · rw [if_neg hd]
        constructor
        · intro h
          cases h
        · rintro ⟨h1, h2⟩
          have h1 : p = c := by simpa using h1
          exact absurd (h1.symm ▸ h2) hd

/-- C3 witness: the amended theorem applied to a concrete program
string whose 5-digit token is not the first token. -/
theorem codigo_programa_corregido_aplicado :
    esDigitos "32101" = true ∧ ("32101" : String).length = 5 :=
  codigo_programa_corregido.2.1 "ESPECIALIZACION 32101 EJEMPLO" "32101" (by decide)

/-- C4 counterexample: app.py builds no composite key and never
deduplicates; two identical survey rows with a directive cargo produce
two identical records in the accumulated result list, which therefore
agree on any composite key. -/
theorem dedup_app_contraejemplo :
    (cargosDirectivos "2021-2025(M0).csv"
      [⟨some "Gerente General", "ANA", "RUIZ", "DERECHO", "ACME"⟩,
       ⟨some "Gerente General", "ANA", "RUIZ", "DERECHO", "ACME"⟩]).length = 2 ∧
    ¬ (cargosDirectivos "2021-2025(M0).csv"
      [⟨some "Gerente General", "ANA", "RUIZ", "DERECHO", "ACME"⟩,
       ⟨some "Gerente General", "ANA", "RUIZ", "DERECHO", "ACME"⟩]).Nodup := by decide

theorem foldl_pasoFilaPos_vistos (ceds : List String) (anio : Int) :
    ∀ (filas : List (List (Option String))) (st : EstadoPos),
      st.vistos.Nodup → st.resultados.length = st.vistos.length →
      ((filas.foldl (pasoFilaPos ceds anio) st).vistos.Nodup ∧
        (filas.foldl (pasoFilaPos ceds anio) st).resultados.length =
          (filas.foldl (pasoFilaPos ceds anio) st).vistos.length) := by
  intro filas
  induction filas with
  | nil => intro st h1 h2; exact ⟨h1, h2⟩
  | cons fila resto ih =>
    intro st h1 h2
    simp only [List.foldl_cons]
    rcases pasoFilaPos_caracterizacion ceds anio st fila with ⟨hres, hvis⟩ |
      ⟨n, c, p, _, _, hnin, hres, hvis⟩
    · exact ih _ (hvis ▸ h1) (by rw [hres, hvis]; exact h2)
    · apply ih
      · rw [hvis]
        exact ((List.perm_append_singleton _ _).nodup_iff).mpr (List.nodup_cons.mpr ⟨hnin, h1⟩)
      · rw [hres, hvis]
        simp [h2]

theorem buscarClave_none_no_mem {α : Type} (dict : List (String × α)) (k : String)
    (h : buscarClave dict k = none) : k ∉ dict.map Prod.fst := by
  induction dict with
  | nil => simp
  | cons par resto ih =>
    rw [buscarClave] at h
    split at h
    · cases h
    · simp only [List.map_cons, List.mem_cons]
      rintro (rfl | hmem)
      · exact absurd rfl (by assumption)
      · exact ih h hmem

theorem reemplazarClave_map_fst {α : Type} (dict : List (String × α)) (k : String) (v : α) :
    (reemplazarClave dict k v).map Prod.fst = dict.map Prod.fst := by
  induction dict with
  | nil => rfl
  | cons par resto ih =>
    rw [reemplazarClave]
    split <;> simp_all

theorem reemplazarClave_mem {α : Type} (dict : List (String × α)) (k : String) (v : α)
    (par : String × α) (h : par ∈ reemplazarClave dict k v) : par ∈ dict ∨ par = (k, v) := by
  induction dict with
  | nil => cases h
  | cons cab resto ih =>
    rw [reemplazarClave] at h
    split at h
    · rcases List.mem_cons.mp h with rfl | hm
      · rename_i heq; exact Or.inr (by rw [heq])
      · exact Or.inl (List.mem_cons_of_mem _ hm)
    · rcases List.mem_cons.mp h with rfl | hm
      · exact Or.inl (List.mem_cons_self _ _)
      · rcases ih hm with h1 | h2
        · exact Or.inl (List.mem_cons_of_mem _ h1)
        · exact Or.inr h2

theorem buscarClave_append_self {α : Type} (dict : List (String × α)) (k : String) (v : α)
    (h : buscarClave dict k = none) : buscarClave (dict ++ [(k, v)]) k = some v := by
  induction dict with
  | nil => simp [buscarClave]
  | cons par resto ih =>
    rw [buscarClave] at h
    rw [List.cons_append, buscarClave]
    split at h
    · cases h
    · rw [if_neg (by assumption)]
      exact ih h

theorem buscarClave_append_of_some {α : Type} (dict l : List (String × α)) (k : String) (v : α)
    (h : buscarClave dict k = some v) : buscarClave (dict ++ l) k = some v := by
  induction dict with
  | nil => cases h
  | cons par resto ih =>
    rw [buscarClave] at h
    rw [List.cons_append, buscarClave]
    split at h
    · rw [if_pos (by assumption)]; exact h
    · rw [if_neg (by assumption)]; exact ih h

theorem buscarClave_reemplazar_self {α : Type} (dict : List (String × α)) (k : String)
    (v nuevo : α) (h : buscarClave dict k = some v) :
    buscarClave (reemplazarClave dict k nuevo) k = some nuevo := by
  induction dict with
  | nil => cases h
  | cons par resto ih =>
    rw [buscarClave] at h
    rw [reemplazarClave]
    split at h
    · rw [if_pos (by assumption), buscarClave, if_pos (by assumption)]
    · rw [if_neg (by assumption), buscarClave, if_neg (by assumption)]
      exact ih h

theorem buscarClave_reemplazar_otro {α : Type} (dict : List (String × α)) (k k2 : String)
    (nuevo : α) (h : k ≠ k2) :
    buscarClave (reemplazarClave dict k2 nuevo) k = buscarClave dict k := by
  induction dict with
  | nil => rfl
  | cons par resto ih =>
    rw [reemplazarClave]
    by_cases hp : par.1 = k2
    · rw [if_pos hp, buscarClave, buscarClave]
      rw [if_neg (by rw [hp]; exact fun hk => h hk.symm), if_neg (by rw [hp]; exact fun hk => h hk.symm)]
    · rw [if_neg hp, buscarClave, buscarClave]
      split
      · rfl
      · exact ih

theorem fechaMenorIgual_refl (a : Option Int) : fechaMenorIgual a a = true := by
  cases a <;> simp [fechaMenorIgual]

theorem fechaMenorIgual_trans (a b c : Option Int) (h1 : fechaMenorIgual a b = true)
    (h2 : fechaMenorIgual b c = true) : fechaMenorIgual a c = true := by
  cases a <;> cases b <;> cases c <;> simp_all [fechaMenorIgual] <;> omega

theorem superaA_true_le (a b : Option Int) (h : superaA a b = true) :
    fechaMenorIgual b a = true := by
  cases a <;> cases b <;> simp_all [superaA, fechaMenorIgual] <;> omega

theorem superaA_false_le (a b : Option Int) (h : superaA a b = false) :
    fechaMenorIgual a b = true := by
  cases a <;> cases b <;> simp_all [superaA, fechaMenorIgual] <;> omega

theorem actualizar_lookup_mono (dict : List (String × RegistroTotal)) (k : String)
    (v : RegistroTotal) (k2 : String) (r2 : RegistroTotal)
    (h : buscarClave dict k = some v) :
    ∃ w, buscarClave (actualizarRegistros dict k2 r2) k = some w ∧
      fechaMenorIgual v.fechaEncuesta w.fechaEncuesta = true := by
  rw [actualizarRegistros]
  split
  · exact ⟨v, buscarClave_append_of_some dict _ k v h, fechaMenorIgual_refl _⟩
  · rename_i viejo h2
    split
    · rename_i hs
      by_cases hk : k = k2
      · subst hk
        rw [h] at h2
        injection h2 with h2
        subst h2
        exact ⟨r2, buscarClave_reemplazar_self dict k v r2 h, superaA_true_le _ _ hs⟩
      · exact ⟨v, (buscarClave_reemplazar_otro dict k k2 r2 hk).trans h, fechaMenorIgual_refl _⟩
    · exact ⟨v, h, fechaMenorIgual_refl _⟩

theorem actualizar_lookup_propio (dict : List (String × RegistroTotal)) (k : String)
    (r : RegistroTotal) :
    ∃ w, buscarClave (actualizarRegistros dict k r) k = some w ∧
      fechaMenorIgual r.fechaEncuesta w.fechaEncuesta = true := by
  rw [actualizarRegistros]
  split
  · rename_i h2
    exact ⟨r, buscarClave_append_self dict k r h2, fechaMenorIgual_refl _⟩
  · rename_i viejo h2
    split
    · rename_i hs
      exact ⟨r, buscarClave_reemplazar_self dict k viejo r h2, fechaMenorIgual_refl _⟩
    · rename_i hs
      exact ⟨viejo, h2, superaA_false_le _ _ (Bool.not_eq_true _ ▸ hs)⟩

theorem foldl_actualizar_mono (entradas : List (String × RegistroTotal)) :
    ∀ (dict : List (String × RegistroTotal)) (k : String) (v : RegistroTotal),
      buscarClave dict k = some v →
      ∃ w, buscarClave (entradas.foldl (fun d kr => actualizarRegistros d kr.1 kr.2) dict) k =
          some w ∧ fechaMenorIgual v.fechaEncuesta w.fechaEncuesta = true := by
  induction entradas with
  | nil => intro dict k v h; exact ⟨v, h, fechaMenorIgual_refl _⟩
  | cons kr resto ih =>
    intro dict k v h
    rw [List.foldl_cons]
    rcases actualizar_lookup_mono dict k v kr.1 kr.2 h with ⟨w1, hw1, hle1⟩
    rcases ih _ k w1 hw1 with ⟨w2, hw2, hle2⟩
    exact ⟨w2, hw2, fechaMenorIgual_trans _ _ _ hle1 hle2⟩

theorem foldl_actualizar_max (entradas : List (String × RegistroTotal)) :
    ∀ (dict : List (String × RegistroTotal)) (k : String) (r : RegistroTotal),
      (k, r) ∈ entradas →
      ∃ w, buscarClave (entradas.foldl (fun d kr => actualizarRegistros d kr.1 kr.2) dict) k =
          some w ∧ fechaMenorIgual r.fechaEncuesta w.fechaEncuesta = true := by
  induction entradas with
  | nil => intro dict k r h; cases h
  | cons kr resto ih =>
    intro dict k r h
    rw [List.foldl_cons]
    rcases List.mem_cons.mp h with rfl | hm
    · rcases actualizar_lookup_propio dict k r with ⟨w1, hw1, hle1⟩
      rcases foldl_actualizar_mono resto _ k w1 hw1 with ⟨w2, hw2, hle2⟩
      exact ⟨w2, hw2, fechaMenorIgual_trans _ _ _ hle1 hle2⟩
    · exact ih _ k r hm

theorem actualizar_claves_nodup (dict : List (String × RegistroTotal)) (k : String)
    (r : RegistroTotal) (h : (dict.map Prod.fst).Nodup) :
    ((actualizarRegistros dict k r).map Prod.fst).Nodup := by
  rw [actualizarRegistros]
  split
  · rename_i h2
    rw [List.map_append]
    exact ((List.perm_append_singleton _ _).nodup_iff).mpr
      (List.nodup_cons.mpr ⟨buscarClave_none_no_mem dict k h2, h⟩)
  · split
    · rw [reemplazarClave_map_fst]; exact h
    · exact h

theorem actualizar_mem (dict : List (String × RegistroTotal)) (k : String) (r : RegistroTotal)
    (par : String × RegistroTotal) (h : par ∈ actualizarRegistros dict k r) :
    par ∈ dict ∨ par = (k, r) := by
  rw [actualizarRegistros] at h
  split at h
  · rcases List.mem_append.mp h with hm | hm
    · exact Or.inl hm
    · exact Or.inr (List.mem_singleton.mp hm)
  · split at h
    · exact reemplazarClave_mem dict k r par h
    · exact Or.inl h

theorem construir_claves_nodup (entradas : List (String × RegistroTotal)) :
    ∀ dict : List (String × RegistroTotal), (dict.map Prod.fst).Nodup →
      ((entradas.foldl (fun d kr => actualizarRegistros d kr.1 kr.2) dict).map Prod.fst).Nodup := by
  induction entradas with
  | nil => intro dict h; exact h
  | cons kr resto ih =>
    intro dict h
    rw [List.foldl_cons]
    exact ih _ (actualizar_claves_nodup dict kr.1 kr.2 h)

theorem construir_mem (entradas : List (String × RegistroTotal)) :
    ∀ (dict : List (String × RegistroTotal)) (par : String × RegistroTotal),
      par ∈ entradas.foldl (fun d kr => actualizarRegistros d kr.1 kr.2) dict →
      par ∈ dict ∨ par ∈ entradas := by
  induction entradas with
  | nil => intro dict par h; exact Or.inl h
  | cons kr resto ih =>
    intro dict par h
    rw [List.foldl_cons] at h
    rcases ih _ par h with hm | hm
    · rcases actualizar_mem dict kr.1 kr.2 par hm with hm2 | hm2
      · exact Or.inl hm2
      · exact Or.inr (hm2 ▸ List.mem_cons_self _ _)
    · exact Or.inr (List.mem_cons_of_mem _ hm)

theorem entradasTotal_clave (pf : String → Option Int)
    (archivos : List (String × List FilaEncuesta)) :
    ∀ par ∈ entradasTotal pf archivos, par.1 = claveDeRegistro par.2 := by
  intro par h
  rw [entradasTotal] at h
  rcases List.mem_flatMap.mp h with ⟨arch, _, h2⟩
  rcases List.mem_flatMap.mp h2 with ⟨f, _, h3⟩
  rw [registrosDeFila] at h3
  rcases List.mem_map.mp h3 with ⟨pi, _, heq⟩
  rw [← heq]

/-- C4 amended: egresados_posgrados.py and totalxano.py deduplicate by a
constructed composite key: in egresados_posgrados.py the loop accepts one
record per seen key (cedula plus current program), so the seen-key set
stays duplicate-free and counts exactly the emitted records; in
totalxano.py the registros_unicos dictionary keyed by name, program and
graduation year keeps duplicate-free keys, every stored key is the
composite key of its record, and the record kept for a key has a survey
date at least as recent as every record inserted under that key (an
absent date counting as oldest).  The scan of app.py, by contrast,
deduplicates nothing. -/
theorem dedup_claves_compuestas :
    (∀ (ceds : List String) (anio : Int) (filas : List (List (Option String))),
      (filas.foldl (pasoFilaPos ceds anio) estadoPosInicial).vistos.Nodup ∧
      (filas.foldl (pasoFilaPos ceds anio) estadoPosInicial).resultados.length =
        (filas.foldl (pasoFilaPos ceds anio) estadoPosInicial).vistos.length) ∧
    (∀ (pf : String → Option Int) (archivos : List (String × List FilaEncuesta)),
      ((registrosUnicosTotal pf archivos).map Prod.fst).Nodup ∧
      (∀ par ∈ registrosUnicosTotal pf archivos, par.1 = claveDeRegistro par.2) ∧
      (∀ par ∈ entradasTotal pf archivos, ∀ w,
        buscarClave (registrosUnicosTotal pf archivos) par.1 = some w →
        fechaMenorIgual par.2.fechaEncuesta w.fechaEncuesta = true)) := by
  constructor
  · intro ceds anio filas
    exact foldl_pasoFilaPos_vistos ceds anio filas estadoPosInicial List.nodup_nil rfl
  · intro pf archivos
    refine ⟨construir_claves_nodup _ [] List.nodup_nil, ?_, ?_⟩
    · intro par h
      rcases construir_mem _ [] par h with hm | hm
      · cases hm
      · exact entradasTotal_clave pf archivos par hm
    · intro par hpar w hw
      rcases foldl_actualizar_max (entradasTotal pf archivos) [] par.1 par.2
        (by rw [Prod.mk.eta]; exact hpar) with ⟨w0, hw0, hle⟩
      rw [registrosUnicosTotal, construirRegistrosUnicos] at hw
      rw [hw] at hw0
      injection hw0 with hw0
      rw [hw0]
      exact hle

/-- C4 witness: the totalxano.py part applied to two concrete survey
rows with the same name, program and graduation year; the kept record
has the later survey date. -/
theorem dedup_claves_compuestas_aplicado :
    fechaMenorIgual
      (⟨"2021-2025(M0).csv", "1", "ANA RUIZ", "DERECHO", "PREGRADO", 2023, "2023-05-10",
        "", "", some 1⟩ : RegistroTotal).fechaEncuesta
      (⟨"2021-2025(M0).csv", "1", "ANA RUIZ", "DERECHO", "PREGRADO", 2023, "2023-05-10",
        "", "", some 2⟩ : RegistroTotal).fechaEncuesta = true :=
  ((dedup_claves_compuestas.2 (fun s => if s = "a" then some 1 else some 2)
    [("2021-2025(M0).csv",
      [⟨some "DERECHO( PEREIRA )( 2023-05-10 )", "ANA", "RUIZ", "1", "", "", "a"⟩,
       ⟨some "DERECHO( PEREIRA )( 2023-05-10 )", "ANA", "RUIZ", "1", "", "", "b"⟩])]).2.2
    ("ANA RUIZ_DERECHO_2023",
      ⟨"2021-2025(M0).csv", "1", "ANA RUIZ", "DERECHO", "PREGRADO", 2023, "2023-05-10",
        "", "", some 1⟩)
    (by decide) _ (by decide))

/-- C5 counterexample: the read of the cleaned posgrados files in
egresados_posgrados_limpios.py line 194 uses the single encoding
utf-8-sig; it does not attempt UTF-8 first and has no Latin-1 retry, so
the claimed fallback chain does not hold for every input CSV read. -/
theorem codificaciones_contraejemplo :
    cadenaLecturaLimpios = [Codificacion.utf8sig] ∧
    cadenaLecturaProgramas = [Codificacion.utf8sig] ∧
    ¬ (cadenaLecturaLimpios.get? 0 = some Codificacion.utf8 ∧
       cadenaLecturaLimpios.get? 1 = some Codificacion.latin1) := by decide

theorem leerConCodificaciones_filterMap {α : Type} (parse : Codificacion → Option α) :
    ∀ encs : List Codificacion,
      leerConCodificaciones parse encs = (encs.filterMap parse).head? := by
  intro encs
  induction encs with
  | nil => rfl
  | cons e resto ih =>
    rw [leerConCodificaciones, List.filterMap_cons]
    cases h : parse e with
    | none => rw [ih]
    | some df => rfl

/-- C5 amended: every raw-input read walks its encoding chain in order
and returns the first successful parse, hence when the UTF-8 attempt
succeeds the result is the UTF-8 parse and further encodings are only
tried on failure; but the cleaned-file read of
egresados_posgrados_limpios.py and the cargos-file read of programas.py
attempt only utf-8-sig, with no fallback. -/
theorem codificaciones_corregido {α : Type} (parse : Codificacion → Option α) :
    (leerConCodificaciones parse cadenaCargadores = (cadenaCargadores.filterMap parse).head?) ∧
    (leerConCodificaciones parse cadenaLimpiar = (cadenaLimpiar.filterMap parse).head?) ∧
    (leerConCodificaciones parse cadenaEncuestas = (cadenaEncuestas.filterMap parse).head?) ∧
    (leerConCodificaciones parse cadenaLecturaLimpios = parse Codificacion.utf8sig) ∧
    (leerConCodificaciones parse cadenaLecturaProgramas = parse Codificacion.utf8sig) ∧
    (∀ df, parse Codificacion.utf8 = some df →
      leerConCodificaciones parse cadenaCargadores = some df ∧
      leerConCodificaciones parse cadenaLimpiar = some df ∧
      leerConCodificaciones parse cadenaEncuestas = some df) := by
  have hsig : leerConCodificaciones parse [Codificacion.utf8sig] = parse Codificacion.utf8sig := by
    rw [leerConCodificaciones]
    cases parse Codificacion.utf8sig <;> rfl
  refine ⟨leerConCodificaciones_filterMap parse _, leerConCodificaciones_filterMap parse _,
    leerConCodificaciones_filterMap parse _, hsig, hsig, ?_⟩
  intro df h
  refine ⟨?_, ?_, ?_⟩
  · rw [cadenaCargadores, leerConCodificaciones, h]
  · rw [cadenaLimpiar, leerConCodificaciones, h]
  · rw [cadenaEncuestas, leerConCodificaciones, h]

/-- C5 witness: the amended theorem applied to a parser that succeeds
under UTF-8. -/
theorem codificaciones_corregido_aplicado :
    leerConCodificaciones (fun e => if e = Codificacion.utf8 then some 1 else none)
      cadenaCargadores = some 1 ∧
    leerConCodificaciones (fun e => if e = Codificacion.utf8 then some 1 else none)
      cadenaLimpiar = some 1 ∧
    leerConCodificaciones (fun e => if e = Codificacion.utf8 then some 1 else none)
      cadenaEncuestas = some 1 :=
  (codificaciones_corregido (fun e => if e = Codificacion.utf8 then some 1 else none)).2.2.2.2.2
    1 (by decide)

theorem procesarConCaptura_hom {α β : Type} (proc : α → Except String (List β)) :
    ∀ (l : List α) (acc : List β),
      l.foldl (fun a f => match proc f with | Except.ok rs => a ++ rs | Except.error _ => a) acc =
        acc ++ procesarConCaptura proc l := by
  intro l
  induction l with
  | nil => intro acc; simp [procesarConCaptura]
  | cons f t ih =>
    intro acc
    rw [procesarConCaptura, List.foldl_cons, List.foldl_cons, ih, ih]
    cases proc f <;> simp

theorem procesarConCaptura_cons {α β : Type} (proc : α → Except String (List β))
    (f : α) (l : List α) :
    procesarConCaptura proc (f :: l) =
      (match proc f with | Except.ok rs => rs | Except.error _ => []) ++
        procesarConCaptura proc l := by
  rw [procesarConCaptura, List.foldl_cons, procesarConCaptura_hom]
  cases proc f <;> simp

theorem procesarConCaptura_append {α β : Type} (proc : α → Except String (List β))
    (l1 l2 : List α) :
    procesarConCaptura proc (l1 ++ l2) =
      procesarConCaptura proc l1 ++ procesarConCaptura proc l2 := by
  induction l1 with
  | nil => simp [procesarConCaptura]
  | cons f t ih => rw [List.cons_append, procesarConCaptura_cons, procesarConCaptura_cons, ih,
      List.append_assoc]

/-- C6: an exception while processing one file never escapes the
per-file loop: the accumulated results are exactly the concatenation of
the results of the successfully processed files, so a failing file contributes
nothing while the records of the files before (and after) it are kept
unchanged in the final result. -/
theorem manejo_errores_continua {α β : Type} (proc : α → Except String (List β))
    (antes despues : List α) (archivo : α) (e : String)
    (herr : proc archivo = Except.error e) :
    procesarConCaptura proc (antes ++ archivo :: despues) =
      procesarConCaptura proc antes ++ procesarConCaptura proc despues ∧
    ∀ l : List α, procesarConCaptura proc l =
      l.flatMap (fun f => match proc f with | Except.ok rs => rs | Except.error _ => []) := by
  have hflat : ∀ l : List α, procesarConCaptura proc l =
      l.flatMap (fun f => match proc f with | Except.ok rs => rs | Except.error _ => []) := by
    intro l
    induction l with
    | nil => rfl
    | cons f t ih => rw [procesarConCaptura_cons, List.flatMap_cons, ih]
  constructor
  · rw [procesarConCaptura_append, procesarConCaptura_cons, herr]
    simp
  · exact hflat

/-- C6 witness: the theorem applied to a processing function that fails
on the middle file. -/
theorem manejo_errores_continua_aplicado :
    procesarConCaptura
      (fun n : Nat => if n = 0 then Except.error "boom" else Except.ok [n])
      ([1] ++ 0 :: [2]) =
    procesarConCaptura
      (fun n : Nat => if n = 0 then Except.error "boom" else Except.ok [n]) [1] ++
    procesarConCaptura
      (fun n : Nat => if n = 0 then Except.error "boom" else Except.ok [n]) [2] :=
  (manejo_errores_continua
    (fun n : Nat => if n = 0 then Except.error "boom" else Except.ok [n])
    [1] [2] 0 "boom" rfl).1

/-- C7 counterexample: programas.py line 75 reads a CSV with the pandas
default comma separator, so not every CSV call in the repository uses
the semicolon. -/
theorem separador_contraejemplo :
    (⟨"programas.py", 75, true, ","⟩ : LlamadaCsv) ∈ llamadasCsv ∧
    ¬ (∀ c ∈ llamadasCsv, c.sep = ";") := by decide

/-- C7 amended: every pd.read_csv and to_csv call on a CSV path uses the
semicolon separator except four calls that use the pandas default comma:
the report writes of app.py line 172, totalxano.py line 322 and
programas.py line 214, and the cargos-file read of programas.py line 75. -/
theorem separador_corregido :
    llamadasCsv.filter (fun c => c.sep ≠ ";") =
      [⟨"app.py", 172, false, ","⟩, ⟨"totalxano.py", 322, false, ","⟩,
       ⟨"programas.py", 75, true, ","⟩, ⟨"programas.py", 214, false, ","⟩] ∧
    ∀ c ∈ llamadasCsv, c.sep = ";" ∨ c.sep = "," := by decide

/-- C7 witness: the amended theorem applied to the app.py write call. -/
theorem separador_corregido_aplicado :
    (⟨"app.py", 172, false, ","⟩ : LlamadaCsv).sep = ";" ∨
    (⟨"app.py", 172, false, ","⟩ : LlamadaCsv).sep = "," :=
  separador_corregido.2 ⟨"app.py", 172, false, ","⟩ (by decide)

theorem mem_insertarOrden (a s : String) (l : List String) (h : a ∈ insertarOrden s l) :
    a = s ∨ a ∈ l := by
  induction l with
  | nil => rcases List.mem_singleton.mp h with rfl; exact Or.inl rfl
  | cons x t ih =>
    rw [insertarOrden] at h
    split at h
    · rcases List.mem_cons.mp h with rfl | h2
      · exact Or.inl rfl
      · exact Or.inr h2
    · rcases List.mem_cons.mp h with rfl | h2
      · exact Or.inr (List.mem_cons_self _ _)
      · rcases ih h2 with h3 | h3
        · exact Or.inl h3
        · exact Or.inr (List.mem_cons_of_mem _ h3)

theorem mem_ordenarCadenas (a : String) (l : List String) (h : a ∈ ordenarCadenas l) :
    a ∈ l := by
  induction l with
  | nil => cases h
  | cons x t ih =>
    rw [ordenarCadenas, List.foldr_cons] at h
    rcases mem_insertarOrden a x _ h with rfl | h2
    · exact List.mem_cons_self _ _
    · exact List.mem_cons_of_mem _ (ih h2)

theorem mem_unicos (a : String) (l : List String) (h : a ∈ unicos l) : a ∈ l := by
  rw [unicos] at h
  suffices haux : ∀ (l : List String) (acc : List String),
      a ∈ l.foldl (fun acc x => if x ∈ acc then acc else acc ++ [x]) acc → a ∈ acc ∨ a ∈ l by
    rcases haux l [] h with h2 | h2
    · cases h2
    · exact h2
  intro l
  induction l with
  | nil => intro acc h2; exact Or.inl h2
  | cons x t ih =>
    intro acc h2
    rw [List.foldl_cons] at h2
    rcases ih _ h2 with h3 | h3
    · split at h3
      · exact Or.inl h3
      · rcases List.mem_append.mp h3 with h4 | h4
        · exact Or.inl h4
        · exact Or.inr (List.mem_singleton.mp h4 ▸ List.mem_cons_self _ _)
    · exact Or.inr (List.mem_cons_of_mem _ h3)

theorem porcentajeRedondeado_eq (eg total : Nat) (h : 0 < total) :
    ((porcentajeRedondeado eg total : ℚ)) / 100 =
      redondear2 ((eg : ℚ) / (total : ℚ) * 100) := by
  have htq : ((total : ℚ)) ≠ 0 := Nat.cast_ne_zero.mpr h.ne'
  have htq0 : (0 : ℚ) < ((total : ℕ) : ℚ) := by exact_mod_cast h
  have hx : (eg : ℚ) / (total : ℚ) * 100 * 100 =
      (((10000 * eg : ℕ) : ℤ) : ℚ) / ((total : ℕ) : ℚ) := by
    push_cast
    field_simp
    ring
  have hfloor : ⌊(((10000 * eg : ℕ) : ℤ) : ℚ) / ((total : ℕ) : ℚ)⌋ =
      ((10000 * eg / total : ℕ) : ℤ) := by
    rw [Rat.floor_intCast_div_natCast]
    exact (Int.natCast_ediv _ _).symm
  have hdm : ((10000 * eg : ℕ) : ℚ) =
      ((total : ℕ) : ℚ) * ((10000 * eg / total : ℕ) : ℚ) +
        ((10000 * eg % total : ℕ) : ℚ) := by
    have h0 := Nat.div_add_mod (10000 * eg) total
    have h1 : ((total * (10000 * eg / total) + 10000 * eg % total : ℕ) : ℚ) =
        ((10000 * eg : ℕ) : ℚ) := by rw [h0]
    rw [Nat.cast_add, Nat.cast_mul] at h1
    linarith
  have hfract : Int.fract ((((10000 * eg : ℕ) : ℤ) : ℚ) / ((total : ℕ) : ℚ)) =
      ((10000 * eg % total : ℕ) : ℚ) / ((total : ℕ) : ℚ) := by
    simp only [Int.fract]
    rw [hfloor, Int.cast_natCast, Int.cast_natCast,
      eq_div_iff htq, sub_mul, div_mul_cancel₀ _ htq]
    linarith [hdm]
  have hc1 : Int.fract ((((10000 * eg : ℕ) : ℤ) : ℚ) / ((total : ℕ) : ℚ)) < 1 / 2 ↔
      2 * (10000 * eg % total) < total := by
    rw [hfract, div_lt_iff₀ htq0]
    constructor
    · intro hh
      have h2 : ((2 * (10000 * eg % total) : ℕ) : ℚ) < ((total : ℕ) : ℚ) := by
        push_cast
        linarith
      exact_mod_cast h2
    · intro hh
      have h2 : ((2 * (10000 * eg % total) : ℕ) : ℚ) < ((total : ℕ) : ℚ) := by
        exact_mod_cast hh
      push_cast at h2
      linarith
  have hc2 : 1 / 2 < Int.fract ((((10000 * eg : ℕ) : ℤ) : ℚ) / ((total : ℕ) : ℚ)) ↔
      total < 2 * (10000 * eg % total) := by
    rw [hfract, lt_div_iff₀ htq0]
    constructor
    · intro hh
      have h2 : ((total : ℕ) : ℚ) < ((2 * (10000 * eg % total) : ℕ) : ℚ) := by
        push_cast
        linarith
      exact_mod_cast h2
    · intro hh
      have h2 : ((total : ℕ) : ℚ) < ((2 * (10000 * eg % total) : ℕ) : ℚ) := by
        exact_mod_cast hh
      push_cast at h2
      linarith
  have hc3 : ⌊(((10000 * eg : ℕ) : ℤ) : ℚ) / ((total : ℕ) : ℚ)⌋ % 2 = 0 ↔
      10000 * eg / total % 2 = 0 := by
    rw [hfloor]
    generalize 10000 * eg / total = q
    omega
  have hmain : ((porcentajeRedondeado eg total : ℕ) : ℤ) =
      redondearParEntero ((((10000 * eg : ℕ) : ℤ) : ℚ) / ((total : ℕ) : ℚ)) := by
    simp only [porcentajeRedondeado, redondearParEntero]
    by_cases h1 : 2 * (10000 * eg % total) < total
    · rw [if_pos h1, if_pos (hc1.mpr h1), hfloor]
    · rw [if_neg h1, if_neg (fun hq => h1 (hc1.mp hq))]
      by_cases h2 : total < 2 * (10000 * eg % total)
      · rw [if_pos h2, if_pos (hc2.mpr h2), hfloor]
        push_cast
        ring
      · rw [if_neg h2, if_neg (fun hq => h2 (hc2.mp hq))]
        by_cases h3 : 10000 * eg / total % 2 = 0
        · rw [if_pos h3, if_pos (hc3.mpr h3), hfloor]
        · rw [if_neg h3, if_neg (fun hq => h3 (hc3.mp hq)), hfloor]
          push_cast
          ring
  calc ((porcentajeRedondeado eg total : ℚ)) / 100
      = (((porcentajeRedondeado eg total : ℕ) : ℤ) : ℚ) / 100 := by
        rw [Int.cast_natCast]
    _ = ((redondearParEntero ((((10000 * eg : ℕ) : ℤ) : ℚ) /
          ((total : ℕ) : ℚ)) : ℤ) : ℚ) / 100 := by
        rw [hmain]
    _ = redondear2 ((eg : ℚ) / (total : ℚ) * 100) := by
        simp only [redondear2]
        rw [hx]

/-- C8: every per-year, per-program summary row emitted by
generar_reportes counts exactly the input records of that year and
program (Total_Estudiantes), the Sí records among them
(Egresados_ULibre), their difference (No_Egresados, where the script
emits it), and the percentage Egresados/Total*100 rounded to two
decimals with ties broken to even, the rule of numpy, pandas .round and
the Python round builtin (stored here as an exact count of hundredths);
this holds for
both egresados_posgrados_limpios.py and egresados_posgrados.py. -/
theorem resumen_totales :
    (∀ (registros : List RegistroFinal) (anio : String) (r : FilaResumen),
      r ∈ resumenAnioLimpios registros anio →
      r.totalEstudiantes = (registros.filter
          (fun x => x.anio = anio ∧ x.programaCodigo = r.codigoPrograma)).length ∧
      r.egresadosULibre = (registros.filter
          (fun x => x.anio = anio ∧ x.programaCodigo = r.codigoPrograma)).countP
          (fun x => x.esEgresadoULibre = "Sí") ∧
      r.noEgresados = r.totalEstudiantes - r.egresadosULibre ∧
      ((r.porcentajeCent : ℚ)) / 100 =
        redondear2 ((r.egresadosULibre : ℚ) / (r.totalEstudiantes : ℚ) * 100)) ∧
    (∀ (registros : List RegistroPos) (anio : Int) (r : FilaResumenPos),
      r ∈ resumenAnioPosgrados registros anio →
      r.totalEstudiantes = (registros.filter
          (fun x => x.anio = anio ∧ x.programaCodigo = some r.codigoPrograma)).length ∧
      r.egresadosULibre = (registros.filter
          (fun x => x.anio = anio ∧ x.programaCodigo = some r.codigoPrograma)).countP
          (fun x => x.esEgresadoULibre = "Sí") ∧
      ((r.porcentajeCent : ℚ)) / 100 =
        redondear2 ((r.egresadosULibre : ℚ) / (r.totalEstudiantes : ℚ) * 100)) := by
  constructor
  · intro registros anio r hr
    rw [resumenAnioLimpios, resumenPorPrograma] at hr
    rcases List.mem_map.mp hr with ⟨codigo, hk, rfl⟩
    have hgrupo : (registros.filter (fun x => x.anio = anio)).filter
        (fun x => x.programaCodigo = codigo) =
        registros.filter (fun x => decide (x.anio = anio ∧ x.programaCodigo = codigo)) := by
      rw [List.filter_filter]
      apply List.filter_congr
      intro x _
      by_cases h1 : x.anio = anio <;> by_cases h2 : x.programaCodigo = codigo <;>
        simp [h1, h2]
    have hmem := mem_unicos _ _ (mem_ordenarCadenas _ _ hk)
    rcases List.mem_map.mp hmem with ⟨x, hx, hxc⟩
    have hxg : x ∈ (registros.filter (fun x => x.anio = anio)).filter
        (fun x => x.programaCodigo = codigo) :=
      List.mem_filter.mpr ⟨hx, by simp [hxc]⟩
    have htot : 0 < ((registros.filter (fun x => x.anio = anio)).filter
        (fun x => x.programaCodigo = codigo)).length := List.length_pos_of_mem hxg
    exact ⟨congrArg List.length hgrupo,
      congrArg (fun l => l.countP (fun x => x.esEgresadoULibre = "Sí")) hgrupo,
      rfl, porcentajeRedondeado_eq _ _ htot⟩
  · intro registros anio r hr
    rw [resumenAnioPosgrados] at hr
    rcases List.mem_map.mp hr with ⟨codigo, hk, rfl⟩
    have hgrupo : (registros.filter (fun x => x.anio = anio)).filter
        (fun x => x.programaCodigo = some codigo) =
        registros.filter (fun x => decide (x.anio = anio ∧ x.programaCodigo = some codigo)) := by
      rw [List.filter_filter]
      apply List.filter_congr
      intro x _
      by_cases h1 : x.anio = anio <;> by_cases h2 : x.programaCodigo = some codigo <;>
        simp [h1, h2]
    have hmem := mem_unicos _ _ (mem_ordenarCadenas _ _ hk)
    rcases List.mem_filterMap.mp hmem with ⟨x, hx, hxc⟩
    have hxg : x ∈ (registros.filter (fun x => x.anio = anio)).filter
        (fun x => x.programaCodigo = some codigo) :=
      List.mem_filter.mpr ⟨hx, by simp [hxc]⟩
    have htot : 0 < ((registros.filter (fun x => x.anio = anio)).filter
        (fun x => x.programaCodigo = some codigo)).length := List.length_pos_of_mem hxg
    exact ⟨congrArg List.length hgrupo,
      congrArg (fun l => l.countP (fun x => x.esEgresadoULibre = "Sí")) hgrupo,
      porcentajeRedondeado_eq _ _ htot⟩

/-- C8 witness: the theorem applied to one concrete record list; of the
three 2021 records of program 32101 exactly one is Sí, and the summary
row carries 3, 1, 2 and 33.33 percent. -/
theorem resumen_totales_aplicado :
    (3 : Nat) =
      (([⟨"2021", "32101", "ESP DER", "A B", "1", "Sí", ""⟩,
         ⟨"2021", "32101", "ESP DER", "C D", "2", "No", ""⟩,
         ⟨"2021", "32101", "ESP DER", "E F", "3", "No", ""⟩,
         ⟨"2022", "32101", "ESP DER", "G H", "4", "No", ""⟩] : List RegistroFinal).filter
        (fun x => x.anio = "2021" ∧ x.programaCodigo = "32101")).length :=
  (resumen_totales.1
    [⟨"2021", "32101", "ESP DER", "A B", "1", "Sí", ""⟩,
     ⟨"2021", "32101", "ESP DER", "C D", "2", "No", ""⟩,
     ⟨"2021", "32101", "ESP DER", "E F", "3", "No", ""⟩,
     ⟨"2022", "32101", "ESP DER", "G H", "4", "No", ""⟩] "2021"
    ⟨"32101", "ESP DER", 3, 1, 2, 3333⟩ (by decide)).1

theorem foldl_filtroMapa {α β : Type} (paso : α → Option β) :
    ∀ (l : List α) (acc : List β),
      l.foldl (fun a x => a ++ (paso x).toList) acc = acc ++ l.filterMap paso := by
  intro l
  induction l with
  | nil => simp
  | cons x t ih =>
    intro acc
    rw [List.foldl_cons, List.filterMap_cons]
    cases h : paso x with
    | none =>
      rw [show (none : Option β).toList = [] from rfl, List.append_nil]
      exact ih acc
    | some b =>
      rw [show (some b).toList = [b] from rfl, ih]
      simp

theorem verificar_lista (par : Option String × String) (anio : String) (y : Int)
    (hy : pyEntero anio = some y) (ts : List (String × Option Int)) (acc : List String) :
    ts.foldl (fun acc tf =>
      let tituloUpper := recorte (mayus tf.1)
      let esMismo := esMismoProgramaTitulo par.1 par.2 tituloUpper
      match tf.2, pyEntero anio with
      | some anioGrado, some anioCursandoInt =>
        if ¬ esMismo ∧ anioGrado < anioCursandoInt then
          acc ++ [tf.1 ++ " (" ++ toString anioGrado ++ ")"]
        else acc
      | _, _ => acc) acc =
    acc ++ ts.filterMap (pasoTitulo par y) := by
  rw [List.foldl_ext _ (fun (acc : List String) (tf : String × Option Int) =>
    acc ++ (pasoTitulo par y tf).toList) acc ?_]
  · exact foldl_filtroMapa (pasoTitulo par y) ts acc
  · intro a tf _
    rcases tf with ⟨t, og⟩
    cases og with
    | none => simp [pasoTitulo]
    | some g =>
      simp only [hy, pasoTitulo]
      by_cases hcond : ¬ (esMismoProgramaTitulo par.1 par.2 (recorte (mayus t)) = true) ∧ g < y
      · rw [if_pos hcond, if_pos (by rwa [← Bool.not_eq_true])]
        simp
      · rw [if_neg hcond, if_neg (by rwa [← Bool.not_eq_true])]
        simp

theorem pasoTitulo_isSome (par : Option String × String) (y : Int) (tf : String × Option Int) :
    (pasoTitulo par y tf).isSome = true ↔
      (esMismoProgramaTitulo par.1 par.2 (recorte (mayus tf.1)) = false ∧
        ∃ g, tf.2 = some g ∧ g < y) := by
  rcases tf with ⟨t, og⟩
  cases og with
  | none => simp [pasoTitulo]
  | some g =>
    by_cases hcond : esMismoProgramaTitulo par.1 par.2 (recorte (mayus t)) = false ∧ g < y
    · simp only [pasoTitulo, if_pos hcond, Option.isSome_some]
      simp only [Option.some.injEq]
      constructor
      · intro _
        exact ⟨hcond.1, g, rfl, hcond.2⟩
      · intro _
        trivial
    · simp only [pasoTitulo, if_neg hcond, Option.isSome_none]
      constructor
      · intro h
        cases h
      · rintro ⟨h1, g2, hg2, hlt⟩
        injection hg2 with hg2
        subst hg2
        exact absurd ⟨h1, hlt⟩ hcond

theorem filtroTitulos_no_vacio (par : Option String × String) (y : Int)
    (ts : List (String × Option Int)) :
    ((!(ts.filterMap (pasoTitulo par y)).isEmpty) = true) ↔
      ∃ tf ∈ ts, (pasoTitulo par y tf).isSome = true := by
  constructor
  · intro h
    have hne : ts.filterMap (pasoTitulo par y) ≠ [] := by
      intro hnil
      rw [hnil] at h
      cases h
    simpa [List.filterMap_eq_nil_iff, Option.isSome_iff_ne_none] using hne
  · intro h
    have hne : ts.filterMap (pasoTitulo par y) ≠ [] := by
      simpa [List.filterMap_eq_nil_iff, Option.isSome_iff_ne_none] using h
    simpa using hne

/-- C9: verificar_egresado_otro_programa returns (True, list) exactly
when the cedula is present in the historical dictionary and carries at
least one title that is not classified as the current program and whose
known graduation year is strictly earlier than the parsed enrolment
year; titles with a missing or unparseable graduation date never count,
and an absent cedula yields (False, []). -/
theorem verificar_egresado_otro_programa_caracterizacion
    (cedula anio cod nom : String)
    (db : List (String × List (String × Option Int))) (y : Int)
    (hy : pyEntero anio = some y) :
    (buscarClave db cedula = none →
      verificarEgresadoOtroPrograma cedula anio cod nom db = (false, [])) ∧
    ((verificarEgresadoOtroPrograma cedula anio cod nom db).1 = true ↔
      ∃ ts, buscarClave db cedula = some ts ∧ ∃ tf ∈ ts,
        esMismoProgramaTitulo (extraerTipoYNombrePrograma cod nom).1
          (extraerTipoYNombrePrograma cod nom).2 (recorte (mayus tf.1)) = false ∧
        ∃ g, tf.2 = some g ∧ g < y) := by
  constructor
  · intro hnone
    simp only [verificarEgresadoOtroPrograma, hnone]
  · simp only [verificarEgresadoOtroPrograma]
    split
    · rename_i hbc
      simp [hbc]
    · rename_i ts hbc
      rw [verificar_lista (extraerTipoYNombrePrograma cod nom) anio y hy ts []]
      simp only [List.nil_append]
      rw [filtroTitulos_no_vacio]
      simp only [pasoTitulo_isSome, hbc, Option.some.injEq]
      constructor
      · intro h
        exact ⟨ts, rfl, h⟩
      · rintro ⟨ts2, rfl, h⟩
        exact h

/-- C9 witness: the characterization applied to a concrete dictionary
with a prior unrelated degree from 2015 and a student enrolled in 2021. -/
theorem verificar_egresado_otro_programa_caracterizacion_aplicado :
    (verificarEgresadoOtroPrograma "123" "2021" "32101"
      "ESPECIALIZACION EN DERECHO ADMINISTRATIVO"
      [("123", [("DERECHO", some 2015)])]).1 = true :=
  (verificar_egresado_otro_programa_caracterizacion "123" "2021" "32101"
    "ESPECIALIZACION EN DERECHO ADMINISTRATIVO"
    [("123", [("DERECHO", some 2015)])] 2021 (by decide)).2.mpr
    ⟨[("DERECHO", some 2015)], by decide, ("DERECHO", some 2015), by decide, by decide,
      2015, rfl, by decide⟩

theorem procesarSegmento_some (parte : String) (e : InfoPrograma)
    (h : procesarSegmento parte = some e) :
    ∃ a m d, (buscarFechas parte.data).getLast? = some (a, m, d) ∧
      e.anio = natDeDigitos a ∧ 2021 ≤ e.anio ∧ e.anio ≤ 2025 ∧
      e.programa = recorte (String.mk (parte.data.takeWhile (fun c => c ≠ '('))) ∧
      e.fechaCompleta = toString e.anio ++ "-" ++ String.mk m ++ "-" ++ String.mk d := by
  rw [procesarSegmento] at h
  split at h
  · cases h
  · rename_i trip a m d heq
    split at h
    · rename_i hrango
      split at h
      · cases h
      · injection h with h
        subst h
        exact ⟨a, m, d, heq, rfl, hrango.1, hrango.2, rfl, rfl⟩
    · cases h

theorem procesarSegmento_sin_fecha (parte : String)
    (h : buscarFechas parte.data = []) : procesarSegmento parte = none := by
  rw [procesarSegmento]
  split
  · rfl
  · rename_i trip a m d heq
    rw [h] at heq
    cases heq

theorem procesarSegmento_fuera_de_rango (parte : String) (a m d : List Char)
    (h : (buscarFechas parte.data).getLast? = some (a, m, d))
    (hr : ¬ (2021 ≤ natDeDigitos a ∧ natDeDigitos a ≤ 2025)) :
    procesarSegmento parte = none := by
  rw [procesarSegmento]
  split
  · rfl
  · rename_i trip a2 m2 d2 heq
    rw [h] at heq
    injection heq with h1
    injection h1 with ha h23
    injection h23 with hm hd
    subst ha
    split
    · rename_i hrango
      exact absurd hrango hr
    · rfl

/-- C10: every entry returned by extraer_programas_y_fechas has a
graduation year between 2021 and 2025; within each space-dash-space
separated segment the year comes from the last parenthesized
YYYY-MM-DD date in the segment and the program name is the
(nonempty) text of the segment before its first opening parenthesis, stripped; a
segment with no parenthesized date, or whose last date has a year
outside 2021-2025, contributes no entry, and a missing value yields no
entries. -/
theorem extraer_programas_fechas_caracterizacion :
    (∀ (ps : Option String) (e : InfoPrograma), e ∈ extraerProgramasYFechas ps →
      2021 ≤ e.anio ∧ e.anio ≤ 2025) ∧
    (∀ (parte : String) (e : InfoPrograma), procesarSegmento parte = some e →
      ∃ a m d, (buscarFechas parte.data).getLast? = some (a, m, d) ∧
        e.anio = natDeDigitos a ∧
        e.programa = recorte (String.mk (parte.data.takeWhile (fun c => c ≠ '('))) ∧
        e.fechaCompleta = toString e.anio ++ "-" ++ String.mk m ++ "-" ++ String.mk d) ∧
    (∀ parte : String, buscarFechas parte.data = [] → procesarSegmento parte = none) ∧
    (∀ (parte : String) (a m d : List Char),
      (buscarFechas parte.data).getLast? = some (a, m, d) →
      ¬ (2021 ≤ natDeDigitos a ∧ natDeDigitos a ≤ 2025) → procesarSegmento parte = none) ∧
    extraerProgramasYFechas none = [] := by
  refine ⟨?_, ?_, procesarSegmento_sin_fecha, procesarSegmento_fuera_de_rango, rfl⟩
  · intro ps e h
    cases ps with
    | none => cases h
    | some s =>
      rw [extraerProgramasYFechas] at h
      split at h
      · cases h
      · rcases List.mem_filterMap.mp h with ⟨parte, _, hseg⟩
        rcases procesarSegmento_some parte e hseg with ⟨a, m, d, _, _, h1, h2, _⟩
        exact ⟨h1, h2⟩
  · intro parte e h
    rcases procesarSegmento_some parte e h with ⟨a, m, d, hlast, h1, _, _, h2, h3⟩
    exact ⟨a, m, d, hlast, h1, h2, h3⟩

/-- C10 witness: the theorem applied to a concrete two-segment program
string whose first segment carries an out-of-range date. -/
theorem extraer_programas_fechas_caracterizacion_aplicado :
    2021 ≤ (⟨"MAESTRÍA EN DERECHO PENAL", 2024, "2024-01-02"⟩ : InfoPrograma).anio ∧
    (⟨"MAESTRÍA EN DERECHO PENAL", 2024, "2024-01-02"⟩ : InfoPrograma).anio ≤ 2025 :=
  extraer_programas_fechas_caracterizacion.1
    (some "DERECHO( PEREIRA )( 2019-05-10 ) - MAESTRÍA EN DERECHO PENAL( PEREIRA )( 2024-01-02 )")
    ⟨"MAESTRÍA EN DERECHO PENAL", 2024, "2024-01-02"⟩ (by decide)
